import Mathlib

/-!
MapExporter: the binary map format (`format.h`).

The header `format.h` declares one constant (`map_signature`) and six record
structs.  This development embeds

* the declarations themselves (member lists in declaration order, with the
  scalar type and array length of every member),
* the C rules that give those declarations a meaning: the size of the
  exact-width integer types, the way a struct is laid out from the
  alignment of its members, and the integer conversion applied when an
  `int` enum constant is compared with a `uint32_t`,
* the codec that the format specification describes on top of the records
  (header validation, offset resolution, string table, record decoders,
  scene assembly and the encoder).  The header contains no codec, so this
  part follows the specification; what the specification leaves open (the
  sentinel index, the size of the matrix block) is a parameter.

  The polygon record of the codec is the image of `struct map_polygon` on
  the target, so that the codec and the declarations agree on every target.

The results: the layout of the six records on every target alignment, the
value and byte image of the signature, the rejection of a signature with a
flipped bit, and the round trip `decode (encode s) = s` for valid scenes
whose encoding fits the 32-bit offset fields.
-/

namespace MapFormat

set_option autoImplicit false

/-! ## The constant -/

/-- `enum { map_signature = 0x0050414D };` an enumeration constant has type `int`. -/
def map_signature : Int := 0x0050414D

/-- Conversion of a (signed) `int` value to `uint32_t`: reduction modulo `2^32`. -/
def toUint32 (v : Int) : Nat := (v % 2 ^ 32).toNat

/-- The C expression `field == constant` for a `uint32_t` field and an `int`
constant where `int` is 32 bits wide: the constant is converted to the
unsigned type and the two unsigned values are compared. -/
def eqUint32Int (field : Nat) (constant : Int) : Bool :=
  field == toUint32 constant

/-! ## Scalar types and struct declarations -/

/-- The scalar types that occur in `format.h`. -/
inductive CType where
  | uint8_t
  | uint32_t
  | float
  deriving DecidableEq, Repr

/-- One member of a struct: `ty name;` (`len = 1`) or `ty name[len];`. -/
structure Member where
  name : String
  ty : CType
  len : Nat
  deriving DecidableEq, Repr

/-- A scalar member `uint32_t name;`. -/
def u32 (name : String) : Member := ⟨name, CType.uint32_t, 1⟩

/-- `struct map_header`. -/
def map_header : List Member :=
  [ u32 "signature",
    u32 "mesh_array_count",
    u32 "mesh_array_offset",
    u32 "node_array_count",
    u32 "node_array_offset",
    u32 "texture_array_count",
    u32 "texture_array_offset" ]

/-- `struct map_mesh`. -/
def map_mesh : List Member :=
  [ u32 "name_offset",
    u32 "vertex_array_count",
    u32 "vertex_array_offset",
    u32 "polygon_array_count",
    u32 "polygon_array_offset" ]

/-- `struct map_node`. -/
def map_node : List Member :=
  [ u32 "name_offset",
    u32 "matrix_offset",
    u32 "parent_index",
    u32 "mesh_index" ]

/-- `struct map_texture`. -/
def map_texture : List Member :=
  [ u32 "name_offset",
    u32 "texture_filename_offset" ]

/-- `struct map_vertex`. -/
def map_vertex : List Member :=
  [ ⟨"position", CType.float, 3⟩,
    ⟨"normal", CType.float, 3⟩,
    ⟨"uv", CType.float, 2⟩ ]

/-- `struct map_polygon`.  The header has no packing pragma and no packing
attribute on this (or any other) struct. -/
def map_polygon : List Member :=
  [ ⟨"index_count", CType.uint8_t, 1⟩,
    ⟨"index_array", CType.uint32_t, 4⟩ ]

/-! ## Struct layout -/

/-- What a target adds to the declarations: the alignment requirement of the
4-byte scalar types.  (`uint8_t` is one byte and is aligned to 1 everywhere.) -/
structure Target where
  alignUint32 : Nat
  alignFloat : Nat
  deriving DecidableEq, Repr

/-- A target's alignments are powers of two that divide the object size. -/
def Target.wellFormed (t : Target) : Prop :=
  t.alignUint32 ∈ [1, 2, 4] ∧ t.alignFloat ∈ [1, 2, 4]

instance (t : Target) : Decidable t.wellFormed := by
  unfold Target.wellFormed; exact inferInstance

/-- Natural alignment: every scalar is aligned to its own size (x86-64,
AArch64, ARM EABI, RISC-V, ...). -/
def naturalTarget : Target := ⟨4, 4⟩

/-- A target on which 4-byte scalars need no alignment. -/
def byteAlignedTarget : Target := ⟨1, 1⟩

/-- Size in bytes: `uint8_t` and `uint32_t` are exact-width types over 8-bit
bytes; `float` is the 4-byte IEEE binary32 (the `f32` of the format). -/
def CType.size : CType → Nat
  | CType.uint8_t => 1
  | CType.uint32_t => 4
  | CType.float => 4

/-- Alignment requirement of a scalar type on a target. -/
def CType.align (t : Target) : CType → Nat
  | CType.uint8_t => 1
  | CType.uint32_t => t.alignUint32
  | CType.float => t.alignFloat

/-- The least multiple of `a` that is at least `n`. -/
def alignUp (n a : Nat) : Nat := (n + a - 1) / a * a

/-- Bytes occupied by a member (an array is its elements back to back). -/
def Member.bytes (m : Member) : Nat := m.ty.size * m.len

/-- Members are placed in declaration order, each at the first offset at or
after the end of the previous member that satisfies its alignment.
`pos` is the end of the members placed so far. -/
def placeMembers (t : Target) : Nat → List Member → List (String × Nat)
  | _, [] => []
  | pos, m :: ms =>
    let off := alignUp pos (m.ty.align t)
    (m.name, off) :: placeMembers t (off + m.bytes) ms

/-- End of the last member, before tail padding. -/
def endOfMembers (t : Target) : Nat → List Member → Nat
  | pos, [] => pos
  | pos, m :: ms => endOfMembers t (alignUp pos (m.ty.align t) + m.bytes) ms

/-- The alignment of a struct is the largest alignment among its members. -/
def structAlign (t : Target) (s : List Member) : Nat :=
  s.foldl (fun a m => max a (m.ty.align t)) 1

/-- Byte offset of every member, `offsetof(struct s, member)`. -/
def offsets (t : Target) (s : List Member) : List (String × Nat) :=
  placeMembers t 0 s

/-- `sizeof(struct s)`: the end of the last member rounded up to the struct's
alignment, so that the elements of an array of structs stay aligned. -/
def sizeOf (t : Target) (s : List Member) : Nat :=
  alignUp (endOfMembers t 0 s) (structAlign t s)

/-- Byte offsets, from the start of the struct, of the elements of the
member called `name` (one offset for a scalar member). -/
def elementOffsets (t : Target) (s : List Member) (name : String) : List Nat :=
  match s.find? (fun m => m.name == name), (offsets t s).lookup name with
  | some m, some off => (List.range m.len).map (fun i => off + i * m.ty.size)
  | _, _ => []

/-- Bytes occupied by an array of `n` structs. -/
def arrayBytes (t : Target) (s : List Member) (n : Nat) : Nat := n * sizeOf t s

/-- Padding bytes inside one struct: its size minus the bytes of its members. -/
def paddingBytes (t : Target) (s : List Member) : Nat :=
  sizeOf t s - (s.map Member.bytes).sum

/-! ## Byte order -/

/-- The four bytes of a 32-bit value, least significant first. -/
def le32 (n : Nat) : List Nat :=
  [n % 256, n / 256 % 256, n / 65536 % 256, n / 16777216 % 256]

/-- The 32-bit value of four bytes, least significant first. -/
def readLe32 : List Nat → Nat
  | [b0, b1, b2, b3] => b0 + 256 * b1 + 65536 * b2 + 16777216 * b3
  | _ => 0

/-! ## The codec -/

/-- The error kinds of the codec. -/
inductive FormatError where
  | BadSignature
  | Truncated
  | OutOfBounds
  | UnterminatedString
  | InvalidPolygon
  | InvalidIndex
  | CyclicHierarchy
  deriving DecidableEq, Repr

/-- A byte buffer. -/
abbrev Buffer := List Nat

/-- Modelled from the spec: what the format specification leaves open ("do
not guess"): the reserved index value that means "reference absent" and the
size in bytes of the opaque matrix block of a node; together with the target
for which `format.h` is compiled, which fixes the image of
`struct map_polygon` in a buffer.  Every result below holds for all choices. -/
structure Config where
  sentinel : Nat
  matrixSize : Nat
  target : Target
  deriving DecidableEq, Repr

/-- Modelled from the spec: a Vertex, 3 position floats, 3 normal floats and
2 uv floats.  A float is carried as its 32-bit pattern, so that equality of
vertices is equality of the stored bits. -/
structure Vertex where
  position : Nat × Nat × Nat
  normal : Nat × Nat × Nat
  uv : Nat × Nat
  deriving DecidableEq, Repr

/-- Modelled from the spec: a Polygon, an index count and a 4-slot index
array. -/
structure Polygon where
  index_count : Nat
  index_array : Nat × Nat × Nat × Nat
  deriving DecidableEq, Repr

/-- Modelled from the spec: a Mesh, a name with its ordered vertices and
polygons. -/
structure Mesh where
  name : List Nat
  vertices : List Vertex
  polygons : List Polygon
  deriving DecidableEq, Repr

/-- Modelled from the spec: a Node, a name, the opaque matrix payload, the
parent reference and the mesh reference (positional index or sentinel). -/
structure Node where
  name : List Nat
  matrix : List Nat
  parent_index : Nat
  mesh_index : Nat
  deriving DecidableEq, Repr

/-- Modelled from the spec: a Texture, a name and a filename. -/
structure Texture where
  name : List Nat
  filename : List Nat
  deriving DecidableEq, Repr

/-- Modelled from the spec: a Scene owns ordered sequences of meshes, nodes
and textures. -/
structure Scene where
  meshes : List Mesh
  nodes : List Node
  textures : List Texture
  deriving DecidableEq, Repr

/-- The slots of a polygon's index array, in order. -/
def Polygon.slots (p : Polygon) : List Nat :=
  [p.index_array.1, p.index_array.2.1, p.index_array.2.2.1, p.index_array.2.2.2]

/-- The used indices of a polygon: the first `index_count` slots. -/
def Polygon.used (p : Polygon) : List Nat := p.slots.take p.index_count

/-- The `len` bytes of the buffer that start at `off`. -/
def slice (buf : Buffer) (off len : Nat) : Buffer := (buf.drop off).take len

/-- The little-endian 32-bit field at byte offset `off`. -/
def readU32 (buf : Buffer) (off : Nat) : Nat := readLe32 (slice buf off 4)

/-- The byte at offset `off`. -/
def readU8 (buf : Buffer) (off : Nat) : Nat := buf.getD off 0

/-- Checked 32-bit multiplication. -/
def checkedMul (a b : Nat) : Option Nat :=
  if a * b < 2 ^ 32 then some (a * b) else none

/-- Checked 32-bit addition. -/
def checkedAdd (a b : Nat) : Option Nat :=
  if a + b < 2 ^ 32 then some (a + b) else none

/-- Modelled from the spec: the Offset Resolver (4.2).  Given
(offset, count, element size, buffer length) it computes the candidate end
with checked arithmetic, overflow being a failure, and fails `OutOfBounds`
unless the whole range lies inside the buffer; a count of zero is always
valid.  The result is the length of the range in bytes. -/
def resolve (offset count elemSize bufLen : Nat) : Except FormatError Nat :=
  if count = 0 then Except.ok 0
  else
    match checkedMul count elemSize with
    | none => Except.error FormatError.OutOfBounds
    | some bytes =>
      match checkedAdd offset bytes with
      | none => Except.error FormatError.OutOfBounds
      | some stop =>
        if stop ≤ bufLen then Except.ok bytes
        else Except.error FormatError.OutOfBounds

/-- Modelled from the spec: the String Table Reader (4.3).  Scans forward
from `off` for a null terminator and returns the bytes before it; fails
`UnterminatedString` if there is none before the buffer ends. -/
def readString (buf : Buffer) (off : Nat) : Except FormatError (List Nat) :=
  if 0 ∈ buf.drop off then Except.ok ((buf.drop off).takeWhile (fun b => b != 0))
  else Except.error FormatError.UnterminatedString

/-- A (count, offset) array descriptor of the header. -/
structure Descriptor where
  count : Nat
  offset : Nat
  deriving DecidableEq, Repr

/-- The three descriptors of the header. -/
structure Header where
  meshes : Descriptor
  nodes : Descriptor
  textures : Descriptor
  deriving DecidableEq, Repr

/-- Size in bytes of the header record, `sizeof(struct map_header)` on every
target (theorem `record_sizes`). -/
def headerSize : Nat := 28

/-- Size in bytes of a mesh record, `sizeof(struct map_mesh)` on every target. -/
def meshSize : Nat := 20

/-- Size in bytes of a node record, `sizeof(struct map_node)` on every target. -/
def nodeSize : Nat := 16

/-- Size in bytes of a texture record, `sizeof(struct map_texture)` on every
target. -/
def textureSize : Nat := 8

/-- Size in bytes of a vertex record, `sizeof(struct map_vertex)` on every
target. -/
def vertexSize : Nat := 32

/-- Size in bytes of a polygon record: `sizeof(struct map_polygon)` on the
target.  It is 17 (the packed record of the specification) on a target
without alignment of 4-byte scalars and 20 under natural alignment. -/
def polygonSize (t : Target) : Nat := sizeOf t map_polygon

/-- Offset of `index_array` in `struct map_polygon` on the target. -/
def polygonIndexOffset (t : Target) : Nat :=
  ((offsets t map_polygon).lookup "index_array").getD 0

/-- Modelled from the spec: the Header Validator (4.1).  Fails `Truncated`
if the buffer is shorter than the 28-byte header, fails `BadSignature` if the
signature field mismatches the magic constant, and otherwise returns the
three (count, offset) descriptors. -/
def headerValidator (buf : Buffer) : Except FormatError Header :=
  if buf.length < headerSize then Except.error FormatError.Truncated
  else if eqUint32Int (readU32 buf 0) map_signature = false then
    Except.error FormatError.BadSignature
  else
    Except.ok
      { meshes := ⟨readU32 buf 4, readU32 buf 8⟩,
        nodes := ⟨readU32 buf 12, readU32 buf 16⟩,
        textures := ⟨readU32 buf 20, readU32 buf 24⟩ }

/-- Decodes `n` consecutive records of `stride` bytes, the first at `off`,
in positional order; the first failure is the result. -/
def decodeRecords {α : Type} (f : Nat → Except FormatError α) (stride : Nat) :
    Nat → Nat → Except FormatError (List α)
  | _, 0 => Except.ok []
  | off, n + 1 =>
    match f off with
    | Except.error e => Except.error e
    | Except.ok a =>
      match decodeRecords f stride (off + stride) n with
      | Except.error e => Except.error e
      | Except.ok rest => Except.ok (a :: rest)

/-- Decodes the vertex record at `off`: eight 4-byte fields. -/
def decodeVertex (buf : Buffer) (off : Nat) : Except FormatError Vertex :=
  Except.ok
    { position := (readU32 buf off, readU32 buf (off + 4), readU32 buf (off + 8)),
      normal := (readU32 buf (off + 12), readU32 buf (off + 16), readU32 buf (off + 20)),
      uv := (readU32 buf (off + 24), readU32 buf (off + 28)) }

/-- The polygon checks: `InvalidPolygon` unless the index count is 3 or 4,
and unless every used index is below the vertex count of the mesh. -/
def checkPolygon (vertexCount : Nat) (p : Polygon) : Except FormatError Unit :=
  if p.index_count ≠ 3 ∧ p.index_count ≠ 4 then Except.error FormatError.InvalidPolygon
  else if p.used.all (fun i => decide (i < vertexCount)) then Except.ok ()
  else Except.error FormatError.InvalidPolygon

/-- Modelled from the spec: the polygon part of the Mesh Decoder (4.4), on
the record that `struct map_polygon` declares: the count byte `index_count`
at offset 0 and the four 4-byte entries of `index_array` from the offset that
member has on the target; padding bytes are skipped and all four slots are
stored verbatim. -/
def decodePolygon (t : Target) (buf : Buffer) (vertexCount : Nat) (off : Nat) :
    Except FormatError Polygon :=
  let p : Polygon :=
    { index_count := readU8 buf off,
      index_array :=
        (readU32 buf (off + polygonIndexOffset t),
         readU32 buf (off + polygonIndexOffset t + 4),
         readU32 buf (off + polygonIndexOffset t + 8),
         readU32 buf (off + polygonIndexOffset t + 12)) }
  match checkPolygon vertexCount p with
  | Except.error e => Except.error e
  | Except.ok _ => Except.ok p

/-- Modelled from the spec: the Mesh Decoder (4.4) for the mesh record at
`off`: the name through the string reader, then the vertex range and the
polygon range through the resolver, then the polygons with their checks. -/
def decodeMesh (t : Target) (buf : Buffer) (off : Nat) : Except FormatError Mesh :=
  match readString buf (readU32 buf off) with
  | Except.error e => Except.error e
  | Except.ok name =>
    match resolve (readU32 buf (off + 8)) (readU32 buf (off + 4)) vertexSize buf.length with
    | Except.error e => Except.error e
    | Except.ok _ =>
      match resolve (readU32 buf (off + 16)) (readU32 buf (off + 12)) (polygonSize t)
          buf.length with
      | Except.error e => Except.error e
      | Except.ok _ =>
        match decodeRecords (decodeVertex buf) vertexSize (readU32 buf (off + 8))
            (readU32 buf (off + 4)) with
        | Except.error e => Except.error e
        | Except.ok vertices =>
          match decodeRecords (decodePolygon t buf (readU32 buf (off + 4))) (polygonSize t)
              (readU32 buf (off + 16)) (readU32 buf (off + 12)) with
          | Except.error e => Except.error e
          | Except.ok polygons => Except.ok ⟨name, vertices, polygons⟩

/-- An index field is valid when it is the sentinel or a position below
`count`; anything else is `InvalidIndex`. -/
def checkIndex (cfg : Config) (count index : Nat) : Except FormatError Unit :=
  if index = cfg.sentinel ∨ index < count then Except.ok ()
  else Except.error FormatError.InvalidIndex

/-- Modelled from the spec: the Node Decoder (4.5) for the node record at
`off`: the name through the string reader, the matrix as an opaque block of
fixed size, then the parent and mesh indices against the node and mesh
counts. -/
def decodeNode (cfg : Config) (buf : Buffer) (nodeCount meshCount : Nat) (off : Nat) :
    Except FormatError Node :=
  match readString buf (readU32 buf off) with
  | Except.error e => Except.error e
  | Except.ok name =>
    match resolve (readU32 buf (off + 4)) 1 cfg.matrixSize buf.length with
    | Except.error e => Except.error e
    | Except.ok _ =>
      match checkIndex cfg nodeCount (readU32 buf (off + 8)) with
      | Except.error e => Except.error e
      | Except.ok _ =>
        match checkIndex cfg meshCount (readU32 buf (off + 12)) with
        | Except.error e => Except.error e
        | Except.ok _ =>
          Except.ok
            { name := name,
              matrix := slice buf (readU32 buf (off + 4)) cfg.matrixSize,
              parent_index := readU32 buf (off + 8),
              mesh_index := readU32 buf (off + 12) }

/-- Walks the ancestor links from `node` with the set of nodes visited on
this walk.  `true` when "absent" is reached, `false` when a node is
revisited.  Each step adds a new node to the visited set, so a walk over `n`
nodes needs at most `n + 1` units of fuel. -/
def walk (cfg : Config) (parents : List Nat) : Nat → List Nat → Nat → Bool
  | 0, _, _ => false
  | fuel + 1, visited, node =>
    if node ∈ visited then false
    else if parents.getD node cfg.sentinel = cfg.sentinel then true
    else walk cfg parents fuel (node :: visited) (parents.getD node cfg.sentinel)

/-- Modelled from the spec: the forest check of the Scene Assembler: from
every node the walk along the parent links must reach "absent" without
revisiting a node, else `CyclicHierarchy`. -/
def checkForest (cfg : Config) (nodes : List Node) : Except FormatError Unit :=
  if (List.range nodes.length).all
      (fun i => walk cfg (nodes.map Node.parent_index) (nodes.length + 1) [] i) then
    Except.ok ()
  else Except.error FormatError.CyclicHierarchy

/-- Modelled from the spec: the Texture Decoder (4.6) for the texture record
at `off`: name and filename through the string reader. -/
def decodeTexture (buf : Buffer) (off : Nat) : Except FormatError Texture :=
  match readString buf (readU32 buf off) with
  | Except.error e => Except.error e
  | Except.ok name =>
    match readString buf (readU32 buf (off + 4)) with
    | Except.error e => Except.error e
    | Except.ok filename => Except.ok ⟨name, filename⟩

/-- Modelled from the spec: the Scene Assembler (4.7), `decode`.  Runs the
header validator, the mesh decoder, the node decoder with the forest check,
and the texture decoder strictly in this order; the first failure is the
result and no partial scene is returned. -/
def decode (cfg : Config) (buf : Buffer) : Except FormatError Scene :=
  match headerValidator buf with
  | Except.error e => Except.error e
  | Except.ok h =>
    match resolve h.meshes.offset h.meshes.count meshSize buf.length with
    | Except.error e => Except.error e
    | Except.ok _ =>
      match decodeRecords (decodeMesh cfg.target buf) meshSize h.meshes.offset
          h.meshes.count with
      | Except.error e => Except.error e
      | Except.ok meshes =>
        match resolve h.nodes.offset h.nodes.count nodeSize buf.length with
        | Except.error e => Except.error e
        | Except.ok _ =>
          match decodeRecords (decodeNode cfg buf h.nodes.count h.meshes.count) nodeSize
              h.nodes.offset h.nodes.count with
          | Except.error e => Except.error e
          | Except.ok nodes =>
            match checkForest cfg nodes with
            | Except.error e => Except.error e
            | Except.ok _ =>
              match resolve h.textures.offset h.textures.count textureSize buf.length with
              | Except.error e => Except.error e
              | Except.ok _ =>
                match decodeRecords (decodeTexture buf) textureSize h.textures.offset
                    h.textures.count with
                | Except.error e => Except.error e
                | Except.ok textures => Except.ok ⟨meshes, nodes, textures⟩

/-! ### Encoder -/

/-- The bytes of a sequence of items, each encoded by `enc`, back to back. -/
def encodeAll {α : Type} (enc : α → List Nat) : List α → List Nat
  | [] => []
  | a :: rest => enc a ++ encodeAll enc rest

/-- The record table of a sequence of items whose variable-length payloads
are laid out back to back from offset `pay`: the record of each item is
computed from the offset of its own payload. -/
def layoutRecords {α : Type} (record : α → Nat → List Nat) (payload : α → List Nat) :
    Nat → List α → List Nat
  | _, [] => []
  | pay, a :: rest =>
    record a pay ++ layoutRecords record payload (pay + (payload a).length) rest

/-- The 32 bytes of a vertex record. -/
def encodeVertex (v : Vertex) : List Nat :=
  le32 v.position.1 ++ le32 v.position.2.1 ++ le32 v.position.2.2 ++
  le32 v.normal.1 ++ le32 v.normal.2.1 ++ le32 v.normal.2.2 ++
  le32 v.uv.1 ++ le32 v.uv.2

/-- Modelled from the spec: the polygon record the Encoder (4.8) writes, the
image of `struct map_polygon` on the target: `index_count` at offset 0, zero
padding up to the offset of `index_array`, the four entries (all four slots
are written), and zero padding up to `sizeof`.  On a target without
alignment of 4-byte scalars there is no padding and the record is the packed
17 bytes of the specification. -/
def encodePolygon (t : Target) (p : Polygon) : List Nat :=
  [p.index_count % 256] ++ List.replicate (polygonIndexOffset t - 1) 0 ++
  (le32 p.index_array.1 ++ le32 p.index_array.2.1 ++
    le32 p.index_array.2.2.1 ++ le32 p.index_array.2.2.2) ++
  List.replicate (polygonSize t - (polygonIndexOffset t + 16)) 0

/-- A string followed by its null terminator. -/
def encodeString (s : List Nat) : List Nat := s ++ [0]

/-- The payload of a mesh: vertex array, polygon array, name. -/
def meshPayload (t : Target) (m : Mesh) : List Nat :=
  encodeAll encodeVertex m.vertices ++ encodeAll (encodePolygon t) m.polygons ++
  encodeString m.name

/-- The 20-byte record of a mesh whose payload starts at `pay`. -/
def meshRecord (t : Target) (m : Mesh) (pay : Nat) : List Nat :=
  le32 (pay + vertexSize * m.vertices.length + polygonSize t * m.polygons.length) ++
  le32 m.vertices.length ++
  le32 pay ++
  le32 m.polygons.length ++
  le32 (pay + vertexSize * m.vertices.length)

/-- The payload of a node: name, matrix. -/
def nodePayload (n : Node) : List Nat := encodeString n.name ++ n.matrix

/-- The 16-byte record of a node whose payload starts at `pay`. -/
def nodeRecord (n : Node) (pay : Nat) : List Nat :=
  le32 pay ++ le32 (pay + (n.name.length + 1)) ++ le32 n.parent_index ++ le32 n.mesh_index

/-- The payload of a texture: name, filename. -/
def texturePayload (t : Texture) : List Nat :=
  encodeString t.name ++ encodeString t.filename

/-- The 8-byte record of a texture whose payload starts at `pay`. -/
def textureRecord (t : Texture) (pay : Nat) : List Nat :=
  le32 pay ++ le32 (pay + (t.name.length + 1))

/-- Runs a check over a sequence in positional order; the first failure is
the result. -/
def checkAll {α : Type} (f : α → Except FormatError Unit) : List α → Except FormatError Unit
  | [] => Except.ok ()
  | a :: rest =>
    match f a with
    | Except.error e => Except.error e
    | Except.ok _ => checkAll f rest

/-- The node checks of the encoder: parent and mesh index. -/
def checkNode (cfg : Config) (nodeCount meshCount : Nat) (n : Node) :
    Except FormatError Unit :=
  match checkIndex cfg nodeCount n.parent_index with
  | Except.error e => Except.error e
  | Except.ok _ => checkIndex cfg meshCount n.mesh_index

/-- Modelled from the spec: the re-validation of the Encoder (4.8): polygon
arity and index bounds, node indices, forest property, each failing with
the error kind of the decoder. -/
def validate (cfg : Config) (s : Scene) : Except FormatError Unit :=
  match checkAll (fun m => checkAll (checkPolygon m.vertices.length) m.polygons) s.meshes with
  | Except.error e => Except.error e
  | Except.ok _ =>
    match checkAll (checkNode cfg s.nodes.length s.meshes.length) s.nodes with
    | Except.error e => Except.error e
    | Except.ok _ => checkForest cfg s.nodes

/-- The header record: signature, then (count, offset) for meshes, nodes and
textures. -/
def encodeHeader (meshCount meshOffset nodeCount nodeOffset textureCount textureOffset : Nat) :
    List Nat :=
  le32 (toUint32 map_signature) ++ le32 meshCount ++ le32 meshOffset ++
  le32 nodeCount ++ le32 nodeOffset ++ le32 textureCount ++ le32 textureOffset

/-- Offset of the mesh records. -/
def meshTableOffset (_s : Scene) : Nat := headerSize

/-- Offset of the node records. -/
def nodeTableOffset (s : Scene) : Nat := headerSize + meshSize * s.meshes.length

/-- Offset of the texture records. -/
def textureTableOffset (s : Scene) : Nat :=
  nodeTableOffset s + nodeSize * s.nodes.length

/-- Offset of the payload of the first mesh. -/
def meshPayloadOffset (s : Scene) : Nat :=
  textureTableOffset s + textureSize * s.textures.length

/-- Offset of the payload of the first node. -/
def nodePayloadOffset (t : Target) (s : Scene) : Nat :=
  meshPayloadOffset s + (encodeAll (meshPayload t) s.meshes).length

/-- Offset of the payload of the first texture. -/
def texturePayloadOffset (t : Target) (s : Scene) : Nat :=
  nodePayloadOffset t s + (encodeAll nodePayload s.nodes).length

/-- The bytes the encoder emits: header, mesh records, node records, texture
records, then the payload of every mesh, node and texture in scene order. -/
def emit (t : Target) (s : Scene) : Buffer :=
  encodeHeader s.meshes.length (meshTableOffset s) s.nodes.length (nodeTableOffset s)
    s.textures.length (textureTableOffset s) ++
  layoutRecords (meshRecord t) (meshPayload t) (meshPayloadOffset s) s.meshes ++
  layoutRecords nodeRecord nodePayload (nodePayloadOffset t s) s.nodes ++
  layoutRecords textureRecord texturePayload (texturePayloadOffset t s) s.textures ++
  encodeAll (meshPayload t) s.meshes ++
  encodeAll nodePayload s.nodes ++
  encodeAll texturePayload s.textures

/-- Modelled from the spec: the Encoder (4.8), `encode`.  Re-validates the
scene, then writes header, records and payload with every offset field
pointing into the emitted buffer.  The offset fields are `uint32_t`: when
the buffer is 2^32 bytes or longer its ranges overflow them and no offset
can point correctly, which is `OutOfBounds`. -/
def encode (cfg : Config) (s : Scene) : Except FormatError Buffer :=
  match validate cfg s with
  | Except.error e => Except.error e
  | Except.ok _ =>
    if (emit cfg.target s).length < 2 ^ 32 then Except.ok (emit cfg.target s)
    else Except.error FormatError.OutOfBounds

/-! ### Valid scenes -/

/-- A string of the format: bytes, none of them the terminator. -/
def IsString (s : List Nat) : Prop := ∀ b ∈ s, b ≠ 0 ∧ b < 256

/-- The fields of a vertex are 32-bit patterns. -/
def Vertex.wellTyped (v : Vertex) : Prop :=
  v.position.1 < 2 ^ 32 ∧ v.position.2.1 < 2 ^ 32 ∧ v.position.2.2 < 2 ^ 32 ∧
  v.normal.1 < 2 ^ 32 ∧ v.normal.2.1 < 2 ^ 32 ∧ v.normal.2.2 < 2 ^ 32 ∧
  v.uv.1 < 2 ^ 32 ∧ v.uv.2 < 2 ^ 32

/-- The count of a polygon is a byte and its four slots are 32-bit values. -/
def Polygon.wellTyped (p : Polygon) : Prop :=
  p.index_count < 256 ∧ ∀ i ∈ p.slots, i < 2 ^ 32

/-- The arity and index-bound invariant of a polygon in a mesh of
`vertexCount` vertices. -/
def Polygon.valid (vertexCount : Nat) (p : Polygon) : Prop :=
  (p.index_count = 3 ∨ p.index_count = 4) ∧ ∀ i ∈ p.used, i < vertexCount

/-- A mesh whose fields have the types of the format and whose polygons
satisfy the polygon invariant. -/
def Mesh.valid (m : Mesh) : Prop :=
  IsString m.name ∧ (∀ v ∈ m.vertices, v.wellTyped) ∧
  ∀ p ∈ m.polygons, p.wellTyped ∧ p.valid m.vertices.length

/-- A node whose fields have the types of the format (the matrix is a block
of `matrixSize` bytes) and whose two indices are positions or the sentinel. -/
def Node.valid (cfg : Config) (nodeCount meshCount : Nat) (n : Node) : Prop :=
  IsString n.name ∧ n.matrix.length = cfg.matrixSize ∧ (∀ b ∈ n.matrix, b < 256) ∧
  n.parent_index < 2 ^ 32 ∧ n.mesh_index < 2 ^ 32 ∧
  (n.parent_index = cfg.sentinel ∨ n.parent_index < nodeCount) ∧
  (n.mesh_index = cfg.sentinel ∨ n.mesh_index < meshCount)

/-- A texture whose name and filename are strings of the format. -/
def Texture.valid (t : Texture) : Prop := IsString t.name ∧ IsString t.filename

/-- The node reached from `node` after `k` parent links, `none` when "absent"
was reached on the way. -/
def climb (cfg : Config) (parents : List Nat) : Nat → Nat → Option Nat
  | 0, node => some node
  | k + 1, node =>
    if parents.getD node cfg.sentinel = cfg.sentinel then none
    else climb cfg parents k (parents.getD node cfg.sentinel)

/-- The forest invariant: following the parent links from any node
terminates, that is, reaches "absent" after finitely many links.  (A chain
that revisits a node never terminates.) -/
def Forest (cfg : Config) (nodes : List Node) : Prop :=
  ∀ i, i < nodes.length → ∃ k, climb cfg (nodes.map Node.parent_index) k i = none

/-- Modelled from the spec: a valid Scene, one that satisfies the invariants
of the data model on its entities: fields of the types of the format,
polygon arity and index bounds, node indices valid or sentinel, and the
forest property. -/
def Scene.valid (cfg : Config) (s : Scene) : Prop :=
  (∀ m ∈ s.meshes, m.valid) ∧
  (∀ n ∈ s.nodes, n.valid cfg s.nodes.length s.meshes.length) ∧
  (∀ t ∈ s.textures, t.valid) ∧
  Forest cfg s.nodes

/-- The number of bytes the encoder emits for a scene on the target of the
configuration. -/
def encodedSize (cfg : Config) (s : Scene) : Nat := (emit cfg.target s).length

/-- The concrete scenario of the specification: one mesh with 3 vertices and
one triangle (index_count = 3, indices [0,1,2,0]), one root node that
references mesh 0, and no textures.  Names and numbers are sample data. -/
def sampleScene (cfg : Config) : Scene :=
  { meshes := [
      { name := [0x6D],
        vertices := [⟨(0, 0, 0), (0, 0, 0x3F800000), (0, 0)⟩,
                     ⟨(0x3F800000, 0, 0), (0, 0, 0x3F800000), (0x3F800000, 0)⟩,
                     ⟨(0, 0x3F800000, 0), (0, 0, 0x3F800000), (0, 0x3F800000)⟩],
        polygons := [⟨3, (0, 1, 2, 0)⟩] }],
    nodes := [
      { name := [0x6E],
        matrix := List.replicate cfg.matrixSize 0,
        parent_index := cfg.sentinel,
        mesh_index := 0 }],
    textures := [] }

/-- A configuration used for concrete instances: sentinel `0xFFFFFFFF`, a
matrix block of 64 bytes (4x4 floats), natural alignment. -/
def sampleConfig : Config := ⟨0xFFFFFFFF, 64, naturalTarget⟩

/-- The same configuration on a target without alignment of 4-byte scalars,
where the polygon record is the packed 17 bytes of the specification. -/
def packedConfig : Config := ⟨0xFFFFFFFF, 64, byteAlignedTarget⟩

/-- A scene with a single mesh of `n` vertices and nothing else. -/
def vertexScene (n : Nat) : Scene :=
  { meshes := [
      { name := [0x76],
        vertices := List.replicate n ⟨(0, 0, 0), (0, 0, 0), (0, 0)⟩,
        polygons := [] }],
    nodes := [],
    textures := [] }

/-- A scene with more vertices than the `uint32_t` field
`vertex_array_count` can hold: one mesh of 2^32 vertices. -/
def oversizedScene : Scene := vertexScene (2 ^ 32)

instance (s : List Nat) : Decidable (IsString s) := by
  unfold IsString; exact inferInstance

instance (v : Vertex) : Decidable v.wellTyped := by
  unfold Vertex.wellTyped; exact inferInstance

instance (p : Polygon) : Decidable p.wellTyped := by
  unfold Polygon.wellTyped; exact inferInstance

instance (n : Nat) (p : Polygon) : Decidable (p.valid n) := by
  unfold Polygon.valid; exact inferInstance

instance (m : Mesh) : Decidable m.valid := by
  unfold Mesh.valid; exact inferInstance

instance (cfg : Config) (a b : Nat) (n : Node) : Decidable (n.valid cfg a b) := by
  unfold Node.valid; exact inferInstance

instance (t : Texture) : Decidable t.valid := by
  unfold Texture.valid; exact inferInstance

/-- A scene used for concrete instances: a quad and a triangle whose unused
4th slot holds 0xDEADBEEF (not a vertex index), a root node and a child node,
one texture. -/
def witnessScene : Scene :=
  { meshes := [
      { name := [0x71],
        vertices := [⟨(0, 0, 0), (0, 0, 0x3F800000), (0, 0)⟩,
                     ⟨(0x3F800000, 0, 0), (0, 0, 0x3F800000), (0x3F800000, 0)⟩,
                     ⟨(0x3F800000, 0x3F800000, 0), (0, 0, 0x3F800000), (0x3F800000, 0x3F800000)⟩,
                     ⟨(0, 0x3F800000, 0), (0, 0, 0x3F800000), (0, 0x3F800000)⟩],
        polygons := [⟨4, (0, 1, 2, 3)⟩, ⟨3, (0, 2, 3, 0xDEADBEEF)⟩] }],
    nodes := [
      { name := [0x72],
        matrix := List.replicate 64 0,
        parent_index := 0xFFFFFFFF,
        mesh_index := 0xFFFFFFFF },
      { name := [0x63],
        matrix := List.replicate 64 1,
        parent_index := 0,
        mesh_index := 0 }],
    textures := [⟨[0x74], [0x74, 0x2E, 0x70, 0x6E, 0x67]⟩] }

/-- The buffer holds the bytes `chunk` at offset `off`. -/
def HoldsAt (buf : Buffer) (off : Nat) (chunk : List Nat) : Prop :=
  ∃ pre post, buf = pre ++ chunk ++ post ∧ pre.length = off

/-! ## Layout of the records -/

/-- Every well-formed target is one of nine alignment pairs. -/
theorem target_cases (t : Target) (h : t.wellFormed) :
    t ∈ [(⟨1, 1⟩ : Target), ⟨1, 2⟩, ⟨1, 4⟩, ⟨2, 1⟩, ⟨2, 2⟩, ⟨2, 4⟩, ⟨4, 1⟩, ⟨4, 2⟩, ⟨4, 4⟩] := by
  obtain ⟨a, b⟩ := t
  obtain ⟨ha, hb⟩ := h
  simp only [List.mem_cons, List.mem_singleton, List.not_mem_nil, or_false] at ha hb
  rcases ha with rfl | rfl | rfl <;> rcases hb with rfl | rfl | rfl <;> decide

/-- C2: on every target, `struct map_header` is 28 bytes without padding and
consists of seven `uint32_t` members at offsets 0, 4, 8, 12, 16, 20, 24 in
the order signature, mesh count, mesh offset, node count, node offset,
texture count, texture offset. -/
theorem map_header_layout (t : Target) (h : t.wellFormed) :
    sizeOf t map_header = 28 ∧
    paddingBytes t map_header = 0 ∧
    map_header.map (fun m => (m.ty, m.len)) = List.replicate 7 (CType.uint32_t, 1) ∧
    offsets t map_header =
      [("signature", 0), ("mesh_array_count", 4), ("mesh_array_offset", 8),
       ("node_array_count", 12), ("node_array_offset", 16),
       ("texture_array_count", 20), ("texture_array_offset", 24)] := by
  have ht := target_cases t h
  simp only [List.mem_cons, List.mem_singleton, List.not_mem_nil, or_false] at ht
  rcases ht with rfl | rfl | rfl | rfl | rfl | rfl | rfl | rfl | rfl <;> decide

/-- The header layout on the natural-alignment target. -/
theorem map_header_layout_witness :
    sizeOf naturalTarget map_header = 28 ∧
    paddingBytes naturalTarget map_header = 0 ∧
    map_header.map (fun m => (m.ty, m.len)) = List.replicate 7 (CType.uint32_t, 1) ∧
    offsets naturalTarget map_header =
      [("signature", 0), ("mesh_array_count", 4), ("mesh_array_offset", 8),
       ("node_array_count", 12), ("node_array_offset", 16),
       ("texture_array_count", 20), ("texture_array_offset", 24)] :=
  map_header_layout naturalTarget (by decide)

/-- C4: on every target, `struct map_mesh` is 20 bytes without padding and
consists of five `uint32_t` members at offsets 0, 4, 8, 12, 16 in the order
name offset, vertex count, vertex offset, polygon count, polygon offset. -/
theorem map_mesh_layout (t : Target) (h : t.wellFormed) :
    sizeOf t map_mesh = 20 ∧
    paddingBytes t map_mesh = 0 ∧
    map_mesh.map (fun m => (m.ty, m.len)) = List.replicate 5 (CType.uint32_t, 1) ∧
    offsets t map_mesh =
      [("name_offset", 0), ("vertex_array_count", 4), ("vertex_array_offset", 8),
       ("polygon_array_count", 12), ("polygon_array_offset", 16)] := by
  have ht := target_cases t h
  simp only [List.mem_cons, List.mem_singleton, List.not_mem_nil, or_false] at ht
  rcases ht with rfl | rfl | rfl | rfl | rfl | rfl | rfl | rfl | rfl <;> decide

/-- The mesh layout on the natural-alignment target. -/
theorem map_mesh_layout_witness :
    sizeOf naturalTarget map_mesh = 20 ∧
    paddingBytes naturalTarget map_mesh = 0 ∧
    map_mesh.map (fun m => (m.ty, m.len)) = List.replicate 5 (CType.uint32_t, 1) ∧
    offsets naturalTarget map_mesh =
      [("name_offset", 0), ("vertex_array_count", 4), ("vertex_array_offset", 8),
       ("polygon_array_count", 12), ("polygon_array_offset", 16)] :=
  map_mesh_layout naturalTarget (by decide)

/-- C6: on every target, `struct map_node` is 16 bytes without padding and
consists of four `uint32_t` members at offsets 0, 4, 8, 12 in the order name
offset, matrix offset, parent index, mesh index. -/
theorem map_node_layout (t : Target) (h : t.wellFormed) :
    sizeOf t map_node = 16 ∧
    paddingBytes t map_node = 0 ∧
    map_node.map (fun m => (m.ty, m.len)) = List.replicate 4 (CType.uint32_t, 1) ∧
    offsets t map_node =
      [("name_offset", 0), ("matrix_offset", 4), ("parent_index", 8), ("mesh_index", 12)] := by
  have ht := target_cases t h
  simp only [List.mem_cons, List.mem_singleton, List.not_mem_nil, or_false] at ht
  rcases ht with rfl | rfl | rfl | rfl | rfl | rfl | rfl | rfl | rfl <;> decide

/-- The node layout on the natural-alignment target. -/
theorem map_node_layout_witness :
    sizeOf naturalTarget map_node = 16 ∧
    paddingBytes naturalTarget map_node = 0 ∧
    map_node.map (fun m => (m.ty, m.len)) = List.replicate 4 (CType.uint32_t, 1) ∧
    offsets naturalTarget map_node =
      [("name_offset", 0), ("matrix_offset", 4), ("parent_index", 8), ("mesh_index", 12)] :=
  map_node_layout naturalTarget (by decide)

/-- C7: on every target, `struct map_texture` is 8 bytes without padding and
consists of two `uint32_t` members at offsets 0 and 4: name offset, then
filename offset. -/
theorem map_texture_layout (t : Target) (h : t.wellFormed) :
    sizeOf t map_texture = 8 ∧
    paddingBytes t map_texture = 0 ∧
    map_texture.map (fun m => (m.ty, m.len)) = List.replicate 2 (CType.uint32_t, 1) ∧
    offsets t map_texture = [("name_offset", 0), ("texture_filename_offset", 4)] := by
  have ht := target_cases t h
  simp only [List.mem_cons, List.mem_singleton, List.not_mem_nil, or_false] at ht
  rcases ht with rfl | rfl | rfl | rfl | rfl | rfl | rfl | rfl | rfl <;> decide

/-- The texture layout on the natural-alignment target. -/
theorem map_texture_layout_witness :
    sizeOf naturalTarget map_texture = 8 ∧
    paddingBytes naturalTarget map_texture = 0 ∧
    map_texture.map (fun m => (m.ty, m.len)) = List.replicate 2 (CType.uint32_t, 1) ∧
    offsets naturalTarget map_texture = [("name_offset", 0), ("texture_filename_offset", 4)] :=
  map_texture_layout naturalTarget (by decide)

/-- C5: on every target, `struct map_vertex` is 32 bytes without padding and
consists of eight 4-byte floats: position[0..2] at offsets 0, 4, 8,
normal[0..2] at 12, 16, 20 and uv[0..1] at 24, 28. -/
theorem map_vertex_layout (t : Target) (h : t.wellFormed) :
    sizeOf t map_vertex = 32 ∧
    paddingBytes t map_vertex = 0 ∧
    map_vertex.map (fun m => (m.name, m.ty, m.ty.size, m.len)) =
      [("position", CType.float, 4, 3), ("normal", CType.float, 4, 3),
       ("uv", CType.float, 4, 2)] ∧
    elementOffsets t map_vertex "position" = [0, 4, 8] ∧
    elementOffsets t map_vertex "normal" = [12, 16, 20] ∧
    elementOffsets t map_vertex "uv" = [24, 28] := by
  have ht := target_cases t h
  simp only [List.mem_cons, List.mem_singleton, List.not_mem_nil, or_false] at ht
  rcases ht with rfl | rfl | rfl | rfl | rfl | rfl | rfl | rfl | rfl <;> decide

/-- The vertex layout on the natural-alignment target. -/
theorem map_vertex_layout_witness :
    sizeOf naturalTarget map_vertex = 32 ∧
    paddingBytes naturalTarget map_vertex = 0 ∧
    map_vertex.map (fun m => (m.name, m.ty, m.ty.size, m.len)) =
      [("position", CType.float, 4, 3), ("normal", CType.float, 4, 3),
       ("uv", CType.float, 4, 2)] ∧
    elementOffsets naturalTarget map_vertex "position" = [0, 4, 8] ∧
    elementOffsets naturalTarget map_vertex "normal" = [12, 16, 20] ∧
    elementOffsets naturalTarget map_vertex "uv" = [24, 28] :=
  map_vertex_layout naturalTarget (by decide)

/-- C1, as stated, fails under natural alignment: `struct map_polygon` is
then 20 bytes, not 17, with 3 bytes of padding after `index_count`; the
entries of `index_array` lie at offsets 4, 8, 12, 16, not 1, 5, 9, 13; and an
array of 2 polygons occupies 40 bytes, not 34. -/
theorem map_polygon_natural_layout :
    sizeOf naturalTarget map_polygon = 20 ∧
    sizeOf naturalTarget map_polygon ≠ 17 ∧
    paddingBytes naturalTarget map_polygon = 3 ∧
    elementOffsets naturalTarget map_polygon "index_count" = [0] ∧
    elementOffsets naturalTarget map_polygon "index_array" = [4, 8, 12, 16] ∧
    elementOffsets naturalTarget map_polygon "index_array" ≠ [1, 5, 9, 13] ∧
    arrayBytes naturalTarget map_polygon 2 = 40 ∧
    arrayBytes naturalTarget map_polygon 2 ≠ 17 * 2 := by
  decide

/-- C1 (amended): on a target where `uint32_t` has alignment `a`,
`struct map_polygon` has `index_count` (one `uint8_t`) at offset 0 and the
four `uint32_t` entries of `index_array` at offsets `a`, `a + 4`, `a + 8`,
`a + 12`; it occupies `16 + a` bytes, `a - 1` of them padding, and an array
of `n` polygons occupies `(16 + a) * n` bytes.  It is 17 bytes exactly when
`a = 1`. -/
theorem map_polygon_layout (t : Target) (h : t.wellFormed) :
    map_polygon.map (fun m => (m.name, m.ty, m.ty.size, m.len)) =
      [("index_count", CType.uint8_t, 1, 1), ("index_array", CType.uint32_t, 4, 4)] ∧
    elementOffsets t map_polygon "index_count" = [0] ∧
    elementOffsets t map_polygon "index_array" =
      [t.alignUint32, t.alignUint32 + 4, t.alignUint32 + 8, t.alignUint32 + 12] ∧
    sizeOf t map_polygon = 16 + t.alignUint32 ∧
    paddingBytes t map_polygon = t.alignUint32 - 1 ∧
    (∀ n, arrayBytes t map_polygon n = (16 + t.alignUint32) * n) ∧
    (sizeOf t map_polygon = 17 ↔ t.alignUint32 = 1) := by
  have ht := target_cases t h
  simp only [List.mem_cons, List.mem_singleton, List.not_mem_nil, or_false] at ht
  have harr : ∀ n, arrayBytes t map_polygon n = n * sizeOf t map_polygon := fun _ => rfl
  rcases ht with rfl | rfl | rfl | rfl | rfl | rfl | rfl | rfl | rfl <;>
    refine ⟨by decide, by decide, by decide, by decide, by decide, ?_, by decide⟩ <;>
    intro n <;> rw [harr, Nat.mul_comm] <;> rfl

/-- The polygon layout on the target without alignment of 4-byte scalars:
there it is the packed 17-byte record. -/
theorem map_polygon_layout_witness :
    map_polygon.map (fun m => (m.name, m.ty, m.ty.size, m.len)) =
      [("index_count", CType.uint8_t, 1, 1), ("index_array", CType.uint32_t, 4, 4)] ∧
    elementOffsets byteAlignedTarget map_polygon "index_count" = [0] ∧
    elementOffsets byteAlignedTarget map_polygon "index_array" = [1, 1 + 4, 1 + 8, 1 + 12] ∧
    sizeOf byteAlignedTarget map_polygon = 16 + 1 ∧
    paddingBytes byteAlignedTarget map_polygon = 1 - 1 ∧
    (∀ n, arrayBytes byteAlignedTarget map_polygon n = (16 + 1) * n) ∧
    (sizeOf byteAlignedTarget map_polygon = 17 ↔ 1 = 1) :=
  map_polygon_layout byteAlignedTarget (by decide)

/-! ## The signature -/

/-- C3: `map_signature` is 0x0050414D = 5259597; it is a non-negative value
below 2^31 (an `int`) and below 2^32 (a `uint32_t`), the conversion to
`uint32_t` leaves it unchanged, and the C comparison of a `uint32_t` field
with it holds exactly when the field is that number. -/
theorem map_signature_value :
    map_signature = 0x0050414D ∧
    map_signature = 5259597 ∧
    0 ≤ map_signature ∧ map_signature < 2 ^ 31 ∧ map_signature < 2 ^ 32 ∧
    (toUint32 map_signature : Int) = map_signature ∧
    ∀ field : Nat, eqUint32Int field map_signature = true ↔ (field : Int) = map_signature := by
  refine ⟨rfl, by decide, by decide, by decide, by decide, by decide, ?_⟩
  intro field
  have h : toUint32 map_signature = 5259597 := by decide
  have h2 : map_signature = ((5259597 : Nat) : Int) := by decide
  rw [eqUint32Int, h, h2, beq_iff_eq]
  omega

/-- The 32-bit field at offset 0 of a buffer of at least four bytes. -/
theorem readU32_zero (b0 b1 b2 b3 : Nat) (rest : List Nat) :
    readU32 (b0 :: b1 :: b2 :: b3 :: rest) 0
      = b0 + 256 * b1 + 65536 * b2 + 16777216 * b3 := by
  simp [readU32, slice, readLe32]

/-- C10: the little-endian encoding of `map_signature` is the byte sequence
0x4D, 0x41, 0x50, 0x00, that is 'M', 'A', 'P', NUL; and a buffer of bytes
whose little-endian signature field compares equal to `map_signature` begins
with these four bytes. -/
theorem map_signature_le_bytes (buf : Buffer) (hbytes : ∀ b ∈ buf, b < 256)
    (hlen : 4 ≤ buf.length)
    (hsig : eqUint32Int (readU32 buf 0) map_signature = true) :
    le32 (toUint32 map_signature) = [0x4D, 0x41, 0x50, 0x00] ∧
    [0x4D, 0x41, 0x50, 0x00] = [Char.toNat 'M', Char.toNat 'A', Char.toNat 'P', 0] ∧
    buf.take 4 = [0x4D, 0x41, 0x50, 0x00] := by
  refine ⟨by decide, by decide, ?_⟩
  have h : toUint32 map_signature = 5259597 := by decide
  match buf, hlen with
  | b0 :: b1 :: b2 :: b3 :: rest, _ =>
    rw [eqUint32Int, h, beq_iff_eq, readU32_zero] at hsig
    have h0 := hbytes b0 (by simp)
    have h1 := hbytes b1 (by simp)
    have h2 := hbytes b2 (by simp)
    have h3 := hbytes b3 (by simp)
    have e0 : b0 = 0x4D := by omega
    have e1 : b1 = 0x41 := by omega
    have e2 : b2 = 0x50 := by omega
    have e3 : b3 = 0x00 := by omega
    subst e0 e1 e2 e3
    rfl

/-- A 28-byte buffer that starts with "MAP\0" passes the comparison and
begins with the four bytes. -/
theorem map_signature_le_bytes_witness :
    le32 (toUint32 map_signature) = [0x4D, 0x41, 0x50, 0x00] ∧
    [0x4D, 0x41, 0x50, 0x00] = [Char.toNat 'M', Char.toNat 'A', Char.toNat 'P', 0] ∧
    ([77, 65, 80, 0] ++ List.replicate 24 1).take 4 = [0x4D, 0x41, 0x50, 0x00] :=
  map_signature_le_bytes ([77, 65, 80, 0] ++ List.replicate 24 1) (by decide) (by decide)
    (by decide)

/-! ## Decoding -/

/-- Flipping one of the 32 bits of the signature changes it. -/
theorem flipped_signature_ne (i : Nat) (hi : i < 32) :
    toUint32 map_signature ^^^ 2 ^ i ≠ toUint32 map_signature := by
  have h : toUint32 map_signature = 5259597 := by decide
  rw [h]
  interval_cases i <;> decide

/-- C9: for every buffer of at least 28 bytes whose signature field holds
`map_signature` with any single one of its 32 bits flipped, decoding fails
with `BadSignature`; no such flipped value equals `map_signature`. -/
theorem decode_flipped_signature (cfg : Config) (buf : Buffer) (i : Nat)
    (hlen : 28 ≤ buf.length) (hi : i < 32)
    (hsig : readU32 buf 0 = toUint32 map_signature ^^^ 2 ^ i) :
    decode cfg buf = Except.error FormatError.BadSignature ∧
    toUint32 map_signature ^^^ 2 ^ i ≠ toUint32 map_signature := by
  have hne := flipped_signature_ne i hi
  refine ⟨?_, hne⟩
  have hcmp : eqUint32Int (readU32 buf 0) map_signature = false := by
    rw [eqUint32Int, hsig]
    exact beq_eq_false_iff_ne.mpr hne
  have hnot : ¬ buf.length < headerSize := by
    simp only [headerSize]; omega
  simp [decode, headerValidator, hnot, hcmp]

/-- A 28-byte buffer whose signature has bit 0 flipped ("LAP\0") fails with
`BadSignature`. -/
theorem decode_flipped_signature_witness :
    decode sampleConfig ([0x4C, 0x41, 0x50, 0] ++ List.replicate 24 0)
      = Except.error FormatError.BadSignature ∧
    toUint32 map_signature ^^^ 2 ^ 0 ≠ toUint32 map_signature :=
  decode_flipped_signature sampleConfig ([0x4C, 0x41, 0x50, 0] ++ List.replicate 24 0) 0
    (by decide) (by decide) (by decide)

/-! ## Round trip -/

theorem HoldsAt.left {buf : Buffer} {off : Nat} {c1 c2 : List Nat}
    (h : HoldsAt buf off (c1 ++ c2)) : HoldsAt buf off c1 := by
  obtain ⟨pre, post, hb, hl⟩ := h
  exact ⟨pre, c2 ++ post, by simp [hb], hl⟩

theorem HoldsAt.right {buf : Buffer} {off : Nat} {c1 c2 : List Nat}
    (h : HoldsAt buf off (c1 ++ c2)) : HoldsAt buf (off + c1.length) c2 := by
  obtain ⟨pre, post, hb, hl⟩ := h
  exact ⟨pre ++ c1, post, by simp [hb], by simp [hl]⟩

theorem HoldsAt.bound {buf : Buffer} {off : Nat} {c : List Nat}
    (h : HoldsAt buf off c) : off + c.length ≤ buf.length := by
  obtain ⟨pre, post, hb, hl⟩ := h
  subst hb
  simp only [List.length_append]
  omega

theorem HoldsAt.slice_eq {buf : Buffer} {off : Nat} {c : List Nat}
    (h : HoldsAt buf off c) : slice buf off c.length = c := by
  obtain ⟨pre, post, hb, hl⟩ := h
  subst hb hl
  simp [slice, List.append_assoc]

theorem readLe32_le32 (n : Nat) (h : n < 2 ^ 32) : readLe32 (le32 n) = n := by
  simp only [le32, readLe32]
  omega

theorem le32_length (n : Nat) : (le32 n).length = 4 := rfl

theorem HoldsAt.readU32_eq {buf : Buffer} {off n : Nat}
    (h : HoldsAt buf off (le32 n)) (hn : n < 2 ^ 32) : readU32 buf off = n := by
  have hs := h.slice_eq
  rw [le32_length] at hs
  rw [readU32, hs, readLe32_le32 n hn]

theorem HoldsAt.readU8_eq {buf : Buffer} {off b : Nat}
    (h : HoldsAt buf off [b]) : readU8 buf off = b := by
  obtain ⟨pre, post, hb, hl⟩ := h
  subst hb hl
  rw [readU8, List.getD_eq_getElem?_getD, List.append_assoc,
    List.getElem?_append_right (Nat.le_refl _)]
  simp

theorem takeWhile_terminator (s post : List Nat) (hs : ∀ b ∈ s, b ≠ 0) :
    (s ++ 0 :: post).takeWhile (fun b => b != 0) = s := by
  induction s with
  | nil => simp
  | cons b rest ih =>
    have hb : b ≠ 0 := hs b (by simp)
    have hrest : ∀ x ∈ rest, x ≠ 0 := fun x hx => hs x (by simp [hx])
    have hb2 : (b != 0) = true := by simpa using hb
    rw [List.cons_append, List.takeWhile_cons, hb2]
    simp [ih hrest]

theorem HoldsAt.readString_eq {buf : Buffer} {off : Nat} {s : List Nat}
    (h : HoldsAt buf off (encodeString s)) (hs : ∀ b ∈ s, b ≠ 0) :
    readString buf off = Except.ok s := by
  obtain ⟨pre, post, hb, hl⟩ := h
  subst hb hl
  have hd : (pre ++ encodeString s ++ post).drop pre.length = s ++ 0 :: post := by
    simp [encodeString, List.append_assoc]
  rw [readString, hd, takeWhile_terminator s post hs]
  simp

/-- A run of 32-bit words held at `off` is read back word by word. -/
theorem HoldsAt.words {buf : Buffer} (ws : List Nat) :
    ∀ (off : Nat), HoldsAt buf off (encodeAll le32 ws) → (∀ w ∈ ws, w < 2 ^ 32) →
      ∀ i, i < ws.length → readU32 buf (off + 4 * i) = ws.getD i 0 := by
  induction ws with
  | nil => intro off _ _ i hi; simp at hi
  | cons w rest ih =>
    intro off h hw i hi
    simp only [encodeAll] at h
    cases i with
    | zero => simpa using h.left.readU32_eq (hw w (by simp))
    | succ j =>
      have hr := h.right
      rw [le32_length] at hr
      have := ih (off + 4) hr (fun x hx => hw x (by simp [hx])) j (by simpa using hi)
      have e : off + 4 * (j + 1) = off + 4 + 4 * j := by omega
      rw [e, this]
      simp

theorem encodeAll_length {α : Type} (enc : α → List Nat) (k : Nat)
    (hk : ∀ a, (enc a).length = k) (l : List α) :
    (encodeAll enc l).length = k * l.length := by
  induction l with
  | nil => rfl
  | cons a rest ih =>
    simp only [encodeAll, List.length_append, List.length_cons, hk, ih]
    rw [Nat.mul_succ]; omega

theorem layoutRecords_length {α : Type} (record : α → Nat → List Nat)
    (payload : α → List Nat) (k : Nat) (hk : ∀ a pay, (record a pay).length = k)
    (l : List α) : ∀ pay, (layoutRecords record payload pay l).length = k * l.length := by
  induction l with
  | nil => intro _; rfl
  | cons a rest ih =>
    intro pay
    simp only [layoutRecords, List.length_append, List.length_cons, hk, ih]
    rw [Nat.mul_succ]; omega

theorem resolve_ok (off count size len : Nat) (hfit : off + count * size ≤ len)
    (hlen : len < 2 ^ 32) : resolve off count size len = Except.ok (count * size) := by
  unfold resolve
  by_cases hc : count = 0
  · simp [hc]
  · have h1 : count * size < 4294967296 := by omega
    have h2 : off + count * size < 4294967296 := by omega
    simp [hc, checkedMul, checkedAdd, h1, h2, hfit]

theorem decodeRecords_encodeAll {α : Type} {buf : Buffer} (f : Nat → Except FormatError α)
    (enc : α → List Nat) (stride : Nat) (P : α → Prop)
    (hlen : ∀ a, (enc a).length = stride)
    (hf : ∀ a off, P a → HoldsAt buf off (enc a) → f off = Except.ok a) :
    ∀ (l : List α) (off : Nat), (∀ a ∈ l, P a) → HoldsAt buf off (encodeAll enc l) →
      decodeRecords f stride off l.length = Except.ok l := by
  intro l
  induction l with
  | nil => intro off _ _; rfl
  | cons a rest ih =>
    intro off hP h
    simp only [encodeAll] at h
    have h1 := hf a off (hP a (by simp)) h.left
    have h2 := h.right
    rw [hlen] at h2
    have h3 := ih (off + stride) (fun x hx => hP x (by simp [hx])) h2
    simp only [List.length_cons, decodeRecords, h1, h3]

theorem decodeRecords_layout {α : Type} {buf : Buffer} (f : Nat → Except FormatError α)
    (record : α → Nat → List Nat) (payload : α → List Nat) (stride : Nat) (P : α → Prop)
    (hlen : ∀ a pay, (record a pay).length = stride)
    (hf : ∀ a off pay, P a → HoldsAt buf off (record a pay) → HoldsAt buf pay (payload a) →
      f off = Except.ok a) :
    ∀ (l : List α) (off pay : Nat), (∀ a ∈ l, P a) →
      HoldsAt buf off (layoutRecords record payload pay l) →
      HoldsAt buf pay (encodeAll payload l) →
      decodeRecords f stride off l.length = Except.ok l := by
  intro l
  induction l with
  | nil => intro off pay _ _ _; rfl
  | cons a rest ih =>
    intro off pay hP hr hp
    simp only [layoutRecords] at hr
    simp only [encodeAll] at hp
    have h1 := hf a off pay (hP a (by simp)) hr.left hp.left
    have h2 := hr.right
    rw [hlen] at h2
    have h3 := ih (off + stride) (pay + (payload a).length)
      (fun x hx => hP x (by simp [hx])) h2 hp.right
    simp only [List.length_cons, decodeRecords, h1, h3]

theorem encodeVertex_length (v : Vertex) : (encodeVertex v).length = vertexSize := rfl

/-- Where `struct map_polygon` holds `index_array` and how large it is, on a
well-formed target. -/
theorem polygon_record_layout (t : Target) (h : t.wellFormed) :
    polygonIndexOffset t = t.alignUint32 ∧ polygonSize t = 16 + t.alignUint32 ∧
    1 ≤ t.alignUint32 := by
  have ht := target_cases t h
  simp only [List.mem_cons, List.mem_singleton, List.not_mem_nil, or_false] at ht
  rcases ht with rfl | rfl | rfl | rfl | rfl | rfl | rfl | rfl | rfl <;> decide

theorem encodePolygon_length (t : Target) (h : t.wellFormed) (p : Polygon) :
    (encodePolygon t p).length = polygonSize t := by
  obtain ⟨h1, h2, h3⟩ := polygon_record_layout t h
  simp only [encodePolygon, List.length_append, List.length_replicate, le32_length,
    List.length_singleton, h1, h2]
  omega

theorem decodeVertex_encode {buf : Buffer} (v : Vertex) (off : Nat) (hv : v.wellTyped)
    (h : HoldsAt buf off (encodeVertex v)) : decodeVertex buf off = Except.ok v := by
  obtain ⟨⟨p1, p2, p3⟩, ⟨n1, n2, n3⟩, ⟨u1, u2⟩⟩ := v
  obtain ⟨b1, b2, b3, b4, b5, b6, b7, b8⟩ := hv
  simp only at b1 b2 b3 b4 b5 b6 b7 b8
  have hw : encodeVertex ⟨(p1, p2, p3), (n1, n2, n3), (u1, u2)⟩
      = encodeAll le32 [p1, p2, p3, n1, n2, n3, u1, u2] := by
    simp [encodeVertex, encodeAll]
  rw [hw] at h
  have W := HoldsAt.words _ off h (by
    intro w hw
    simp only [List.mem_cons, List.mem_singleton, List.not_mem_nil, or_false] at hw
    rcases hw with rfl | rfl | rfl | rfl | rfl | rfl | rfl | rfl <;> assumption)
  have r0 : readU32 buf off = p1 := by simpa using W 0 (by simp)
  have r1 : readU32 buf (off + 4) = p2 := by simpa using W 1 (by simp)
  have r2 : readU32 buf (off + 8) = p3 := by simpa using W 2 (by simp)
  have r3 : readU32 buf (off + 12) = n1 := by simpa using W 3 (by simp)
  have r4 : readU32 buf (off + 16) = n2 := by simpa using W 4 (by simp)
  have r5 : readU32 buf (off + 20) = n3 := by simpa using W 5 (by simp)
  have r6 : readU32 buf (off + 24) = u1 := by simpa using W 6 (by simp)
  have r7 : readU32 buf (off + 28) = u2 := by simpa using W 7 (by simp)
  simp only [decodeVertex, r0, r1, r2, r3, r4, r5, r6, r7]

theorem checkPolygon_ok (vertexCount : Nat) (p : Polygon) (hp : p.valid vertexCount) :
    checkPolygon vertexCount p = Except.ok () := by
  obtain ⟨hc, hu⟩ := hp
  have h1 : ¬ (p.index_count ≠ 3 ∧ p.index_count ≠ 4) := by omega
  have h2 : p.used.all (fun i => decide (i < vertexCount)) = true := by
    simpa [List.all_eq_true] using hu
  simp only [checkPolygon, h1, h2, if_true, if_false]

theorem decodePolygon_encode {buf : Buffer} (t : Target) (ht : t.wellFormed)
    (vertexCount : Nat) (p : Polygon) (off : Nat)
    (hp : p.wellTyped ∧ p.valid vertexCount)
    (h : HoldsAt buf off (encodePolygon t p)) :
    decodePolygon t buf vertexCount off = Except.ok p := by
  obtain ⟨h1, _, h3⟩ := polygon_record_layout t ht
  obtain ⟨⟨hc, hs⟩, hval⟩ := hp
  have hchk := checkPolygon_ok vertexCount p hval
  obtain ⟨c, ⟨i0, i1, i2, i3⟩⟩ := p
  simp only at hc
  simp only [encodePolygon] at h
  have hcount : readU8 buf off = c := by
    rw [h.left.left.left.readU8_eq]; exact Nat.mod_eq_of_lt hc
  have hwords : HoldsAt buf (off + polygonIndexOffset t)
      (encodeAll le32 [i0, i1, i2, i3]) := by
    have hr := h.left.right
    have e : ([c % 256] ++ List.replicate (polygonIndexOffset t - 1) 0).length
        = polygonIndexOffset t := by
      simp only [List.length_append, List.length_singleton, List.length_replicate, h1]
      omega
    rw [e] at hr
    simpa [encodeAll] using hr
  have W := HoldsAt.words [i0, i1, i2, i3] (off + polygonIndexOffset t) hwords hs
  have r0 : readU32 buf (off + polygonIndexOffset t) = i0 := by simpa using W 0 (by simp)
  have r1 : readU32 buf (off + polygonIndexOffset t + 4) = i1 := by
    simpa using W 1 (by simp)
  have r2 : readU32 buf (off + polygonIndexOffset t + 8) = i2 := by
    simpa using W 2 (by simp)
  have r3 : readU32 buf (off + polygonIndexOffset t + 12) = i3 := by
    simpa using W 3 (by simp)
  simp only [decodePolygon, hcount, r0, r1, r2, r3, hchk]

theorem encodeString_length (s : List Nat) : (encodeString s).length = s.length + 1 := by
  simp [encodeString]

theorem meshRecord_length (t : Target) (m : Mesh) (pay : Nat) :
    (meshRecord t m pay).length = meshSize := rfl

theorem nodeRecord_length (n : Node) (pay : Nat) : (nodeRecord n pay).length = nodeSize := rfl

theorem textureRecord_length (t : Texture) (pay : Nat) :
    (textureRecord t pay).length = textureSize := rfl

theorem decodeMesh_encode {buf : Buffer} (t : Target) (ht : t.wellFormed)
    (hlen : buf.length < 2 ^ 32) (m : Mesh)
    (off pay : Nat) (hm : m.valid) (hr : HoldsAt buf off (meshRecord t m pay))
    (hp : HoldsAt buf pay (meshPayload t m)) : decodeMesh t buf off = Except.ok m := by
  obtain ⟨hname, hverts, hpolys⟩ := hm
  have lV := encodeAll_length encodeVertex 32 encodeVertex_length m.vertices
  have lP := encodeAll_length (encodePolygon t) (polygonSize t) (encodePolygon_length t ht)
    m.polygons
  simp only [meshPayload] at hp
  have hV : HoldsAt buf pay (encodeAll encodeVertex m.vertices) := hp.left.left
  have hP : HoldsAt buf (pay + 32 * m.vertices.length)
      (encodeAll (encodePolygon t) m.polygons) := by
    have := hp.left.right
    rwa [lV] at this
  have hN : HoldsAt buf (pay + 32 * m.vertices.length + polygonSize t * m.polygons.length)
      (encodeString m.name) := by
    have := hp.right
    rwa [List.length_append, lV, lP, ← Nat.add_assoc] at this
  have bV := hV.bound
  have bP := hP.bound
  have bN := hN.bound
  rw [lV] at bV
  rw [lP] at bP
  rw [encodeString_length] at bN
  have hw : meshRecord t m pay = encodeAll le32
      [pay + 32 * m.vertices.length + polygonSize t * m.polygons.length, m.vertices.length,
       pay, m.polygons.length, pay + 32 * m.vertices.length] := by
    simp [meshRecord, encodeAll, vertexSize]
  rw [hw] at hr
  have hpc : m.polygons.length ≤ polygonSize t * m.polygons.length :=
    Nat.le_mul_of_pos_left _ (by
      have := (polygon_record_layout t ht).2.1
      omega)
  have W := HoldsAt.words _ off hr (by
    intro w hw
    simp only [List.mem_cons, List.mem_singleton, List.not_mem_nil, or_false] at hw
    rcases hw with rfl | rfl | rfl | rfl | rfl <;> omega)
  have r0 : readU32 buf off
      = pay + 32 * m.vertices.length + polygonSize t * m.polygons.length := by
    simpa using W 0 (by simp)
  have r1 : readU32 buf (off + 4) = m.vertices.length := by simpa using W 1 (by simp)
  have r2 : readU32 buf (off + 8) = pay := by simpa using W 2 (by simp)
  have r3 : readU32 buf (off + 12) = m.polygons.length := by simpa using W 3 (by simp)
  have r4 : readU32 buf (off + 16) = pay + 32 * m.vertices.length := by
    simpa using W 4 (by simp)
  have e1 := hN.readString_eq (fun b hb => (hname b hb).1)
  have e2 := resolve_ok pay m.vertices.length vertexSize buf.length
    (by simp only [vertexSize]; omega) hlen
  have e3 := resolve_ok (pay + 32 * m.vertices.length) m.polygons.length (polygonSize t)
    buf.length (by rw [Nat.mul_comm m.polygons.length]; omega) hlen
  have e4 := decodeRecords_encodeAll (decodeVertex buf) encodeVertex vertexSize
    Vertex.wellTyped encodeVertex_length (fun v o hv h => decodeVertex_encode v o hv h)
    m.vertices pay hverts hV
  have e5 := decodeRecords_encodeAll (decodePolygon t buf m.vertices.length)
    (encodePolygon t) (polygonSize t) (fun p => p.wellTyped ∧ p.valid m.vertices.length)
    (encodePolygon_length t ht)
    (fun p o hp h => decodePolygon_encode t ht m.vertices.length p o hp h)
    m.polygons (pay + 32 * m.vertices.length) hpolys hP
  simp only [decodeMesh, r0, r1, r2, r3, r4, e1, e2, e3, e4, e5]

theorem checkIndex_ok (cfg : Config) (count index : Nat)
    (h : index = cfg.sentinel ∨ index < count) : checkIndex cfg count index = Except.ok () := by
  simp only [checkIndex, h, if_true]

theorem decodeNode_encode {buf : Buffer} (cfg : Config) (nodeCount meshCount : Nat)
    (hlen : buf.length < 2 ^ 32) (n : Node) (off pay : Nat)
    (hn : n.valid cfg nodeCount meshCount) (hr : HoldsAt buf off (nodeRecord n pay))
    (hp : HoldsAt buf pay (nodePayload n)) :
    decodeNode cfg buf nodeCount meshCount off = Except.ok n := by
  obtain ⟨hname, hmlen, _, hpar, hmesh, hpv, hmv⟩ := hn
  simp only [nodePayload] at hp
  have hN : HoldsAt buf pay (encodeString n.name) := hp.left
  have hM : HoldsAt buf (pay + (n.name.length + 1)) n.matrix := by
    have := hp.right
    rwa [encodeString_length] at this
  have bM := hM.bound
  have hw : nodeRecord n pay = encodeAll le32
      [pay, pay + (n.name.length + 1), n.parent_index, n.mesh_index] := by
    simp [nodeRecord, encodeAll]
  rw [hw] at hr
  have W := HoldsAt.words _ off hr (by
    intro w hw
    simp only [List.mem_cons, List.mem_singleton, List.not_mem_nil, or_false] at hw
    rcases hw with rfl | rfl | rfl | rfl <;> omega)
  have r0 : readU32 buf off = pay := by simpa using W 0 (by simp)
  have r1 : readU32 buf (off + 4) = pay + (n.name.length + 1) := by simpa using W 1 (by simp)
  have r2 : readU32 buf (off + 8) = n.parent_index := by simpa using W 2 (by simp)
  have r3 : readU32 buf (off + 12) = n.mesh_index := by simpa using W 3 (by simp)
  have e1 := hN.readString_eq (fun b hb => (hname b hb).1)
  have e2 := resolve_ok (pay + (n.name.length + 1)) 1 cfg.matrixSize buf.length
    (by omega) hlen
  have e3 := checkIndex_ok cfg nodeCount n.parent_index hpv
  have e4 := checkIndex_ok cfg meshCount n.mesh_index hmv
  have e5 : slice buf (pay + (n.name.length + 1)) cfg.matrixSize = n.matrix := by
    rw [← hmlen]; exact hM.slice_eq
  simp only [decodeNode, r0, r1, r2, r3, e1, e2, e3, e4, e5]

theorem decodeTexture_encode {buf : Buffer} (hlen : buf.length < 2 ^ 32) (t : Texture)
    (off pay : Nat) (ht : t.valid) (hr : HoldsAt buf off (textureRecord t pay))
    (hp : HoldsAt buf pay (texturePayload t)) : decodeTexture buf off = Except.ok t := by
  obtain ⟨hname, hfile⟩ := ht
  simp only [texturePayload] at hp
  have hN : HoldsAt buf pay (encodeString t.name) := hp.left
  have hF : HoldsAt buf (pay + (t.name.length + 1)) (encodeString t.filename) := by
    have := hp.right
    rwa [encodeString_length] at this
  have bF := hF.bound
  have hw : textureRecord t pay = encodeAll le32 [pay, pay + (t.name.length + 1)] := by
    simp [textureRecord, encodeAll]
  rw [hw] at hr
  have W := HoldsAt.words _ off hr (by
    intro w hw
    simp only [List.mem_cons, List.mem_singleton, List.not_mem_nil, or_false] at hw
    rcases hw with rfl | rfl <;> omega)
  have r0 : readU32 buf off = pay := by simpa using W 0 (by simp)
  have r1 : readU32 buf (off + 4) = pay + (t.name.length + 1) := by simpa using W 1 (by simp)
  have e1 := hN.readString_eq (fun b hb => (hname b hb).1)
  have e2 := hF.readString_eq (fun b hb => (hfile b hb).1)
  simp only [decodeTexture, r0, r1, e1, e2]

theorem checkAll_ok {α : Type} (f : α → Except FormatError Unit) (l : List α)
    (h : ∀ a ∈ l, f a = Except.ok ()) : checkAll f l = Except.ok () := by
  induction l with
  | nil => rfl
  | cons a rest ih =>
    simp only [checkAll, h a (by simp)]
    exact ih (fun x hx => h x (by simp [hx]))

theorem climb_add (cfg : Config) (parents : List Nat) (a b : Nat) :
    ∀ x, climb cfg parents (a + b) x = (climb cfg parents a x).bind (climb cfg parents b) := by
  induction a with
  | zero => intro x; simp [climb]
  | succ a ih =>
    intro x
    have e : a + 1 + b = (a + b) + 1 := by omega
    rw [e]
    simp only [climb]
    split
    · rfl
    · exact ih _

theorem climb_none_mono (cfg : Config) (parents : List Nat) (k m x : Nat) (hkm : k ≤ m)
    (h : climb cfg parents k x = none) : climb cfg parents m x = none := by
  have e : m = k + (m - k) := by omega
  rw [e, climb_add, h]
  rfl

/-- A node that is its own ancestor never reaches "absent". -/
theorem climb_cycle (cfg : Config) (parents : List Nat) (m x : Nat) (hm : 0 < m)
    (hx : climb cfg parents m x = some x) : ∀ k, climb cfg parents k x ≠ none := by
  intro k
  induction k using Nat.strong_induction_on with
  | _ k ih =>
    intro hk
    by_cases hkm : k ≤ m
    · rw [climb_none_mono cfg parents k m x hkm hk] at hx
      exact Option.noConfusion hx
    · have e : k = m + (k - m) := by omega
      rw [e, climb_add, hx] at hk
      exact ih (k - m) (by omega) hk

theorem length_le_of_nodup_lt (l : List Nat) (n : Nat) (hd : l.Nodup) (hl : ∀ x ∈ l, x < n) :
    l.length ≤ n := by
  have hs : l ⊆ List.range n := fun x hx => List.mem_range.mpr (hl x hx)
  have := (hd.subperm hs).length_le
  simpa using this

/-- Enough fuel: a walk whose start reaches "absent" returns `true` when the
fuel and the visited set together cover all nodes. -/
theorem walk_of_climb (cfg : Config) (parents : List Nat)
    (hvalid : ∀ j, j < parents.length →
      parents.getD j cfg.sentinel = cfg.sentinel ∨ parents.getD j cfg.sentinel < parents.length)
    (k : Nat) : ∀ (fuel : Nat) (visited : List Nat) (node : Nat),
      climb cfg parents k node = none → node < parents.length → visited.Nodup →
      (∀ v ∈ visited, v < parents.length ∧ ∃ m, 0 < m ∧ climb cfg parents m v = some node) →
      parents.length + 1 ≤ fuel + visited.length →
      walk cfg parents fuel visited node = true := by
  induction k with
  | zero => intro _ _ _ h; simp [climb] at h
  | succ k ih =>
    intro fuel visited node hk hnode hnd hvis hfuel
    have hnot : node ∉ visited := by
      intro hmem
      obtain ⟨_, m, hm, hc⟩ := hvis node hmem
      exact climb_cycle cfg parents m node hm hc (k + 1) hk
    have hlen : (node :: visited).length ≤ parents.length :=
      length_le_of_nodup_lt _ _ (List.nodup_cons.mpr ⟨hnot, hnd⟩) (by
        intro x hx
        rcases List.mem_cons.mp hx with rfl | hx
        · exact hnode
        · exact (hvis x hx).1)
    simp only [List.length_cons] at hlen
    obtain ⟨f, rfl⟩ : ∃ f, fuel = f + 1 := ⟨fuel - 1, by omega⟩
    simp only [walk, hnot, if_false]
    by_cases hs : parents.getD node cfg.sentinel = cfg.sentinel
    · simp only [hs, if_true]
    · simp only [hs, if_false]
      simp only [climb, hs, if_false] at hk
      have hnext : parents.getD node cfg.sentinel < parents.length := by
        rcases hvalid node hnode with h | h
        · exact absurd h hs
        · exact h
      have hstep : climb cfg parents 1 node = some (parents.getD node cfg.sentinel) := by
        simp only [climb, hs, if_false]
      apply ih f (node :: visited) _ hk hnext (List.nodup_cons.mpr ⟨hnot, hnd⟩)
      · intro v hv
        rcases List.mem_cons.mp hv with rfl | hv
        · exact ⟨hnode, 1, Nat.one_pos, hstep⟩
        · obtain ⟨hvl, m, hm, hc⟩ := hvis v hv
          refine ⟨hvl, m + 1, Nat.succ_pos m, ?_⟩
          rw [climb_add, hc]
          exact hstep
      · simp only [List.length_cons]; omega

/-- A walk that returns `true` has reached "absent". -/
theorem climb_of_walk (cfg : Config) (parents : List Nat) (fuel : Nat) :
    ∀ (visited : List Nat) (node : Nat), walk cfg parents fuel visited node = true →
      ∃ k, climb cfg parents k node = none := by
  induction fuel with
  | zero => intro _ _ h; simp [walk] at h
  | succ f ih =>
    intro visited node h
    by_cases hs : parents.getD node cfg.sentinel = cfg.sentinel
    · exact ⟨1, by simp only [climb, hs, if_true]⟩
    · by_cases hv : node ∈ visited
      · simp [walk, hv] at h
      · simp only [walk, hv, hs, if_false] at h
        obtain ⟨k, hk⟩ := ih _ _ h
        exact ⟨k + 1, by simp only [climb, hs, if_false]; exact hk⟩

/-- The parent fields of nodes with valid indices, seen as a list. -/
theorem parents_valid (cfg : Config) (nodes : List Node) (meshCount : Nat)
    (hnode : ∀ n ∈ nodes, n.valid cfg nodes.length meshCount) :
    ∀ j, j < (nodes.map Node.parent_index).length →
      (nodes.map Node.parent_index).getD j cfg.sentinel = cfg.sentinel ∨
      (nodes.map Node.parent_index).getD j cfg.sentinel
        < (nodes.map Node.parent_index).length := by
  intro j hj
  have hj2 : j < nodes.length := by simpa using hj
  have e : (nodes.map Node.parent_index).getD j cfg.sentinel = (nodes[j]).parent_index := by
    simp [List.getD_eq_getElem?_getD, List.getElem?_eq_getElem hj2]
  rw [e, List.length_map]
  exact (hnode nodes[j] (List.getElem_mem hj2)).2.2.2.2.2.1

/-- For nodes with valid indices the forest check of the assembler passes
exactly when the forest invariant holds: the fuel of the walk is enough. -/
theorem checkForest_iff (cfg : Config) (nodes : List Node) (meshCount : Nat)
    (hnode : ∀ n ∈ nodes, n.valid cfg nodes.length meshCount) :
    checkForest cfg nodes = Except.ok () ↔ Forest cfg nodes := by
  have hwalk : (∀ i ∈ List.range nodes.length,
        walk cfg (nodes.map Node.parent_index) (nodes.length + 1) [] i = true)
      ↔ Forest cfg nodes := by
    constructor
    · intro h i hi
      exact climb_of_walk cfg _ _ [] i (h i (List.mem_range.mpr hi))
    · intro h i hi
      have hi2 := List.mem_range.mp hi
      obtain ⟨k, hk⟩ := h i hi2
      exact walk_of_climb cfg _ (parents_valid cfg nodes meshCount hnode) k
        (nodes.length + 1) [] i hk (by simpa using hi2) List.nodup_nil
        (fun v hv => absurd hv (List.not_mem_nil v)) (by simp)
  rw [← hwalk, ← List.all_eq_true]
  unfold checkForest
  split <;> simp_all

theorem checkForest_ok (cfg : Config) (nodes : List Node) (meshCount : Nat)
    (hnode : ∀ n ∈ nodes, n.valid cfg nodes.length meshCount) (h : Forest cfg nodes) :
    checkForest cfg nodes = Except.ok () :=
  (checkForest_iff cfg nodes meshCount hnode).mpr h

theorem validate_ok (cfg : Config) (s : Scene) (h : s.valid cfg) :
    validate cfg s = Except.ok () := by
  obtain ⟨hmesh, hnode, _, hforest⟩ := h
  have h1 : checkAll (fun m => checkAll (checkPolygon m.vertices.length) m.polygons) s.meshes
      = Except.ok () :=
    checkAll_ok _ _ (fun m hm => checkAll_ok _ _
      (fun p hp => checkPolygon_ok _ p ((hmesh m hm).2.2 p hp).2))
  have h2 : checkAll (checkNode cfg s.nodes.length s.meshes.length) s.nodes = Except.ok () :=
    checkAll_ok _ _ (fun n hn => by
      obtain ⟨_, _, _, _, _, hp, hm⟩ := hnode n hn
      simp only [checkNode, checkIndex_ok cfg _ _ hp, checkIndex_ok cfg _ _ hm])
  simp only [validate, h1, h2, checkForest_ok cfg s.nodes s.meshes.length hnode hforest]

/-- The scene assembler succeeds when each of its steps does. -/
theorem decode_of_steps (cfg : Config) (buf : Buffer) (h : Header) (r1 r2 r3 : Nat)
    (meshes : List Mesh) (nodes : List Node) (textures : List Texture)
    (eH : headerValidator buf = Except.ok h)
    (e1 : resolve h.meshes.offset h.meshes.count meshSize buf.length = Except.ok r1)
    (e2 : decodeRecords (decodeMesh cfg.target buf) meshSize h.meshes.offset h.meshes.count
      = Except.ok meshes)
    (e3 : resolve h.nodes.offset h.nodes.count nodeSize buf.length = Except.ok r2)
    (e4 : decodeRecords (decodeNode cfg buf h.nodes.count h.meshes.count) nodeSize
      h.nodes.offset h.nodes.count = Except.ok nodes)
    (e5 : checkForest cfg nodes = Except.ok ())
    (e6 : resolve h.textures.offset h.textures.count textureSize buf.length = Except.ok r3)
    (e7 : decodeRecords (decodeTexture buf) textureSize h.textures.offset h.textures.count
      = Except.ok textures) :
    decode cfg buf = Except.ok ⟨meshes, nodes, textures⟩ := by
  simp only [decode, eH, e1, e2, e3, e4, e5, e6, e7]

theorem encodeHeader_length (a b c d e f : Nat) :
    (encodeHeader a b c d e f).length = headerSize := rfl

/-- Decoding the bytes emitted for a valid scene gives the scene back, when
the emitted buffer is shorter than 2^32 bytes. -/
theorem decode_emit (cfg : Config) (s : Scene) (ht : cfg.target.wellFormed)
    (h : s.valid cfg) (hlen : (emit cfg.target s).length < 2 ^ 32) :
    decode cfg (emit cfg.target s) = Except.ok s := by
  obtain ⟨hmesh, hnode, htex, hforest⟩ := h
  have lMR := layoutRecords_length (meshRecord cfg.target) (meshPayload cfg.target) 20
    (meshRecord_length cfg.target) s.meshes (meshPayloadOffset s)
  have lNR := layoutRecords_length nodeRecord nodePayload 16 nodeRecord_length s.nodes
    (nodePayloadOffset cfg.target s)
  have lTR := layoutRecords_length textureRecord texturePayload 8 textureRecord_length
    s.textures (texturePayloadOffset cfg.target s)
  have h0 : HoldsAt (emit cfg.target s) 0
      (encodeHeader s.meshes.length (meshTableOffset s) s.nodes.length (nodeTableOffset s)
          s.textures.length (textureTableOffset s) ++
        layoutRecords (meshRecord cfg.target) (meshPayload cfg.target) (meshPayloadOffset s)
          s.meshes ++
        layoutRecords nodeRecord nodePayload (nodePayloadOffset cfg.target s) s.nodes ++
        layoutRecords textureRecord texturePayload (texturePayloadOffset cfg.target s)
          s.textures ++
        encodeAll (meshPayload cfg.target) s.meshes ++
        encodeAll nodePayload s.nodes ++
        encodeAll texturePayload s.textures) :=
    ⟨[], [], by simp only [emit, List.nil_append, List.append_nil], rfl⟩
  have h1 := h0.left
  have h2 := h1.left
  have h3 := h2.left
  have h4 := h3.left
  have h5 := h4.left
  have hH := h5.left
  have hMR : HoldsAt (emit cfg.target s) (meshTableOffset s)
      (layoutRecords (meshRecord cfg.target) (meshPayload cfg.target) (meshPayloadOffset s)
        s.meshes) := by
    have := h5.right
    rwa [encodeHeader_length, Nat.zero_add] at this
  have hNR : HoldsAt (emit cfg.target s) (nodeTableOffset s)
      (layoutRecords nodeRecord nodePayload (nodePayloadOffset cfg.target s) s.nodes) := by
    have := h4.right
    rwa [List.length_append, encodeHeader_length, lMR, Nat.zero_add] at this
  have hTR : HoldsAt (emit cfg.target s) (textureTableOffset s)
      (layoutRecords textureRecord texturePayload (texturePayloadOffset cfg.target s)
        s.textures) := by
    have := h3.right
    rwa [List.length_append, List.length_append, encodeHeader_length, lMR, lNR,
      Nat.zero_add] at this
  have hMP : HoldsAt (emit cfg.target s) (meshPayloadOffset s)
      (encodeAll (meshPayload cfg.target) s.meshes) := by
    have := h2.right
    rwa [List.length_append, List.length_append, List.length_append, encodeHeader_length,
      lMR, lNR, lTR, Nat.zero_add] at this
  have hNP : HoldsAt (emit cfg.target s) (nodePayloadOffset cfg.target s)
      (encodeAll nodePayload s.nodes) := by
    have := h1.right
    rwa [List.length_append, List.length_append, List.length_append, List.length_append,
      encodeHeader_length, lMR, lNR, lTR, Nat.zero_add] at this
  have hTP : HoldsAt (emit cfg.target s) (texturePayloadOffset cfg.target s)
      (encodeAll texturePayload s.textures) := by
    have := h0.right
    rwa [List.length_append, List.length_append, List.length_append, List.length_append,
      List.length_append, encodeHeader_length, lMR, lNR, lTR, Nat.zero_add] at this
  have bH := hH.bound
  have bMR := hMR.bound
  have bNR := hNR.bound
  have bTR := hTR.bound
  rw [encodeHeader_length] at bH
  rw [lMR] at bMR
  rw [lNR] at bNR
  rw [lTR] at bTR
  simp only [headerSize] at bH
  have oM : meshTableOffset s = 28 := rfl
  have oN : nodeTableOffset s = 28 + 20 * s.meshes.length := rfl
  have oT : textureTableOffset s = 28 + 20 * s.meshes.length + 16 * s.nodes.length := rfl
  have hsig : toUint32 map_signature = 5259597 := by decide
  have hw : encodeHeader s.meshes.length (meshTableOffset s) s.nodes.length
      (nodeTableOffset s) s.textures.length (textureTableOffset s)
      = encodeAll le32 [toUint32 map_signature, s.meshes.length, meshTableOffset s,
          s.nodes.length, nodeTableOffset s, s.textures.length, textureTableOffset s] := by
    simp [encodeHeader, encodeAll]
  rw [hw] at hH
  have W := HoldsAt.words _ 0 hH (by
    intro w hw
    simp only [List.mem_cons, List.mem_singleton, List.not_mem_nil, or_false] at hw
    rcases hw with rfl | rfl | rfl | rfl | rfl | rfl | rfl <;> omega)
  have r0 : readU32 (emit cfg.target s) 0 = toUint32 map_signature := by
    simpa using W 0 (by simp)
  have r1 : readU32 (emit cfg.target s) 4 = s.meshes.length := by simpa using W 1 (by simp)
  have r2 : readU32 (emit cfg.target s) 8 = meshTableOffset s := by
    simpa using W 2 (by simp)
  have r3 : readU32 (emit cfg.target s) 12 = s.nodes.length := by simpa using W 3 (by simp)
  have r4 : readU32 (emit cfg.target s) 16 = nodeTableOffset s := by
    simpa using W 4 (by simp)
  have r5 : readU32 (emit cfg.target s) 20 = s.textures.length := by
    simpa using W 5 (by simp)
  have r6 : readU32 (emit cfg.target s) 24 = textureTableOffset s := by
    simpa using W 6 (by simp)
  have hnot : ¬ (emit cfg.target s).length < headerSize := by
    simp only [headerSize]; omega
  have hcmp : eqUint32Int (toUint32 map_signature) map_signature = true := by decide
  have eH : headerValidator (emit cfg.target s) = Except.ok
      { meshes := ⟨s.meshes.length, meshTableOffset s⟩,
        nodes := ⟨s.nodes.length, nodeTableOffset s⟩,
        textures := ⟨s.textures.length, textureTableOffset s⟩ } := by
    simp [headerValidator, hnot, r0, r1, r2, r3, r4, r5, r6, hcmp]
  have e1 := resolve_ok (meshTableOffset s) s.meshes.length meshSize
    (emit cfg.target s).length (by simp only [meshSize]; omega) hlen
  have e2 := decodeRecords_layout (decodeMesh cfg.target (emit cfg.target s))
    (meshRecord cfg.target) (meshPayload cfg.target) meshSize
    Mesh.valid (meshRecord_length cfg.target)
    (fun m o p hm hr hp => decodeMesh_encode cfg.target ht hlen m o p hm hr hp)
    s.meshes (meshTableOffset s) (meshPayloadOffset s) hmesh hMR hMP
  have e3 := resolve_ok (nodeTableOffset s) s.nodes.length nodeSize
    (emit cfg.target s).length (by simp only [nodeSize]; omega) hlen
  have e4 := decodeRecords_layout
    (decodeNode cfg (emit cfg.target s) s.nodes.length s.meshes.length)
    nodeRecord nodePayload nodeSize (Node.valid cfg s.nodes.length s.meshes.length)
    nodeRecord_length
    (fun n o p hn hr hp => decodeNode_encode cfg _ _ hlen n o p hn hr hp)
    s.nodes (nodeTableOffset s) (nodePayloadOffset cfg.target s) hnode hNR hNP
  have e5 := checkForest_ok cfg s.nodes s.meshes.length hnode hforest
  have e6 := resolve_ok (textureTableOffset s) s.textures.length textureSize
    (emit cfg.target s).length (by simp only [textureSize]; omega) hlen
  have e7 := decodeRecords_layout (decodeTexture (emit cfg.target s)) textureRecord
    texturePayload textureSize Texture.valid textureRecord_length
    (fun t o p ht hr hp => decodeTexture_encode hlen t o p ht hr hp)
    s.textures (textureTableOffset s) (texturePayloadOffset cfg.target s) htex hTR hTP
  exact decode_of_steps cfg (emit cfg.target s)
    { meshes := ⟨s.meshes.length, meshTableOffset s⟩,
      nodes := ⟨s.nodes.length, nodeTableOffset s⟩,
      textures := ⟨s.textures.length, textureTableOffset s⟩ }
    _ _ _ s.meshes s.nodes s.textures eH e1 e2 e3 e4 e5 e6 e7

/-- A valid scene whose encoding would be 2^32 bytes or longer is rejected by
the encoder. -/
theorem encode_oversized (cfg : Config) (s : Scene) (h : s.valid cfg)
    (hsize : 2 ^ 32 ≤ encodedSize cfg s) :
    encode cfg s = Except.error FormatError.OutOfBounds := by
  have hnot : ¬ (emit cfg.target s).length < 2 ^ 32 := Nat.not_lt.mpr hsize
  simp only [encode, validate_ok cfg s h, hnot, if_false]

/-- A scene of one mesh with `n` vertices is valid, whatever `n` is. -/
theorem vertexScene_valid (cfg : Config) (n : Nat) : (vertexScene n).valid cfg := by
  refine ⟨?_, ?_, ?_, ?_⟩
  · intro m hm
    have e : m = ⟨[0x76], List.replicate n ⟨(0, 0, 0), (0, 0, 0), (0, 0)⟩, []⟩ := by
      simpa [vertexScene] using hm
    subst e
    refine ⟨by show IsString [0x76]; decide, ?_, ?_⟩
    · intro v hv
      have e2 := List.eq_of_mem_replicate hv
      subst e2
      decide
    · intro p hp
      exact absurd hp (List.not_mem_nil p)
  · intro n hn
    exact absurd hn (List.not_mem_nil n)
  · intro t ht
    exact absurd ht (List.not_mem_nil t)
  · intro i hi
    exact absurd hi (Nat.not_lt_zero i)

/-- The encoding of a scene of one mesh with `n` vertices has at least
`32 * n` bytes. -/
theorem vertexScene_size (cfg : Config) (n : Nat) :
    32 * n ≤ encodedSize cfg (vertexScene n) := by
  have hv : (encodeAll (meshPayload cfg.target) (vertexScene n).meshes).length
      = 32 * n + 2 := by
    simp only [vertexScene, encodeAll, meshPayload, List.length_append, List.append_nil,
      encodeAll_length encodeVertex 32 encodeVertex_length, List.length_replicate,
      encodeString_length, List.length_nil, List.length_singleton]
  simp only [encodedSize, emit, List.length_append, hv]
  omega

theorem decodeRecords_length {α : Type} (f : Nat → Except FormatError α) (stride : Nat) :
    ∀ (n off : Nat) (l : List α), decodeRecords f stride off n = Except.ok l →
      l.length = n := by
  intro n
  induction n with
  | zero =>
    intro off l h
    simp only [decodeRecords] at h
    cases h
    rfl
  | succ n ih =>
    intro off l h
    simp only [decodeRecords] at h
    split at h
    · cases h
    · split at h
      · cases h
      · rename_i rest hrest
        cases h
        simp only [List.length_cons, ih _ _ hrest]

theorem decodeRecords_mem {α : Type} (f : Nat → Except FormatError α) (stride : Nat) :
    ∀ (n off : Nat) (l : List α), decodeRecords f stride off n = Except.ok l →
      ∀ a ∈ l, ∃ o, f o = Except.ok a := by
  intro n
  induction n with
  | zero =>
    intro off l h a ha
    simp only [decodeRecords] at h
    cases h
    exact absurd ha (List.not_mem_nil a)
  | succ n ih =>
    intro off l h a ha
    simp only [decodeRecords] at h
    split at h
    · cases h
    · rename_i x hx
      split at h
      · cases h
      · rename_i rest hrest
        cases h
        rcases List.mem_cons.mp ha with rfl | ha
        · exact ⟨off, hx⟩
        · exact ih _ _ hrest a ha

/-- A 32-bit field of a buffer of bytes is below 2^32. -/
theorem readU32_lt (buf : Buffer) (hb : ∀ b ∈ buf, b < 256) (off : Nat) :
    readU32 buf off < 2 ^ 32 := by
  have hmem : ∀ b ∈ slice buf off 4, b < 256 := fun b h =>
    hb b (List.mem_of_mem_drop (List.mem_of_mem_take h))
  unfold readU32
  generalize slice buf off 4 = l at hmem
  rcases l with _ | ⟨b0, _ | ⟨b1, _ | ⟨b2, _ | ⟨b3, _ | ⟨b4, r⟩⟩⟩⟩⟩ <;>
    simp only [readLe32] <;> try norm_num
  have h0 := hmem b0 (by simp)
  have h1 := hmem b1 (by simp)
  have h2 := hmem b2 (by simp)
  have h3 := hmem b3 (by simp)
  omega

/-- The vertex count of a decoded mesh is the value of its 32-bit field
`vertex_array_count`. -/
theorem decodeMesh_vertex_count (t : Target) (buf : Buffer) (off : Nat) (m : Mesh)
    (h : decodeMesh t buf off = Except.ok m) :
    m.vertices.length = readU32 buf (off + 4) := by
  unfold decodeMesh at h
  split at h
  · cases h
  · split at h
    · cases h
    · split at h
      · cases h
      · split at h
        · cases h
        · rename_i vertices hvertices
          split at h
          · cases h
          · cases h
            exact decodeRecords_length _ _ _ _ _ hvertices

/-- The meshes of a decoded scene come out of the mesh decoder. -/
theorem decode_meshes (cfg : Config) (buf : Buffer) (s : Scene)
    (h : decode cfg buf = Except.ok s) :
    ∃ off n, decodeRecords (decodeMesh cfg.target buf) meshSize off n = Except.ok s.meshes := by
  unfold decode at h
  split at h
  · cases h
  · split at h
    · cases h
    · split at h
      · cases h
      · rename_i meshes hmeshes
        split at h
        · cases h
        · split at h
          · cases h
          · split at h
            · cases h
            · split at h
              · cases h
              · split at h
                · cases h
                · cases h
                  exact ⟨_, _, hmeshes⟩

/-- Every mesh of a scene decoded from a buffer of bytes has fewer than 2^32
vertices: the count is read from a `uint32_t` field. -/
theorem decoded_vertex_count_lt (cfg : Config) (buf : Buffer) (hb : ∀ b ∈ buf, b < 256)
    (s : Scene) (h : decode cfg buf = Except.ok s) :
    ∀ m ∈ s.meshes, m.vertices.length < 2 ^ 32 := by
  intro m hm
  obtain ⟨off, n, hrec⟩ := decode_meshes cfg buf s h
  obtain ⟨o, ho⟩ := decodeRecords_mem _ _ n off s.meshes hrec m hm
  rw [decodeMesh_vertex_count cfg.target buf o m ho]
  exact readU32_lt buf hb (o + 4)

/-- No buffer of bytes decodes to a scene with a mesh of 2^32 or more
vertices, whatever the encoder does. -/
theorem vertexScene_not_decodable (cfg : Config) (buf : Buffer) (hb : ∀ b ∈ buf, b < 256)
    (n : Nat) (hn : 2 ^ 32 ≤ n) : decode cfg buf ≠ Except.ok (vertexScene n) := by
  intro h
  have hlt := decoded_vertex_count_lt cfg buf hb (vertexScene n) h
    ⟨[0x76], List.replicate n ⟨(0, 0, 0), (0, 0, 0), (0, 0)⟩, []⟩
    (by simp [vertexScene])
  simp only [List.length_replicate] at hlt
  omega

/-- C8, as stated, fails for a scene that meets every invariant of the data
model but is too large for the 32-bit count and offset fields of the format:
one mesh of 2^32 vertices.  The encoder rejects it with `OutOfBounds`, so
there is no encoder output that decodes to it; and no buffer of bytes at all
decodes to it, because the vertex count is read from a `uint32_t` field. -/
theorem oversized_scene_not_encodable :
    oversizedScene.valid sampleConfig ∧
    encode sampleConfig oversizedScene = Except.error FormatError.OutOfBounds ∧
    (¬ ∃ buf, encode sampleConfig oversizedScene = Except.ok buf ∧
      decode sampleConfig buf = Except.ok oversizedScene) ∧
    ∀ buf : Buffer, (∀ b ∈ buf, b < 256) →
      decode sampleConfig buf ≠ Except.ok oversizedScene := by
  have hv : oversizedScene.valid sampleConfig := vertexScene_valid sampleConfig (2 ^ 32)
  have hs : 2 ^ 32 ≤ encodedSize sampleConfig oversizedScene :=
    Nat.le_trans (by norm_num) (vertexScene_size sampleConfig (2 ^ 32))
  have he := encode_oversized sampleConfig oversizedScene hv hs
  refine ⟨hv, he, ?_, ?_⟩
  · rintro ⟨buf, hb, _⟩
    rw [he] at hb
    exact Except.noConfusion hb
  · intro buf hb
    exact vertexScene_not_decodable sampleConfig buf hb (2 ^ 32) (Nat.le_refl _)

/-- C8 (amended): for every valid scene whose encoding is shorter than 2^32
bytes, `encode` succeeds and `decode` of the encoder's output succeeds with
a scene equal to the input, field by field: all four slots of every polygon
are compared, so the unused 4th slot of a polygon whose `index_count` is 3
is preserved.  This holds on every target, the polygon record being the
image of `struct map_polygon` there. -/
theorem decode_encode_roundtrip (cfg : Config) (s : Scene) (ht : cfg.target.wellFormed)
    (h : s.valid cfg) (hsize : encodedSize cfg s < 2 ^ 32) :
    ∃ buf, encode cfg s = Except.ok buf ∧ decode cfg buf = Except.ok s := by
  have hlen : (emit cfg.target s).length < 2 ^ 32 := hsize
  refine ⟨emit cfg.target s, ?_, decode_emit cfg s ht h hlen⟩
  simp only [encode, validate_ok cfg s h, hlen, if_true]

set_option maxRecDepth 100000 in
/-- The round trip, under natural alignment (20-byte polygon records), of a
concrete valid scene with a triangle whose unused 4th slot holds 0xDEADBEEF
and a two-level node hierarchy. -/
theorem decode_encode_roundtrip_witness :
    ∃ buf, encode sampleConfig witnessScene = Except.ok buf ∧
      decode sampleConfig buf = Except.ok witnessScene :=
  decode_encode_roundtrip sampleConfig witnessScene (by decide)
    ⟨by decide, by decide, by decide,
      fun i hi => match i, hi with
        | 0, _ => ⟨1, by decide⟩
        | 1, _ => ⟨2, by decide⟩⟩
    (by decide)

set_option maxRecDepth 100000 in
/-- The same round trip on a target without alignment of 4-byte scalars,
where the polygon record is the packed 17 bytes of the specification. -/
theorem packed_scene_roundtrip :
    decode packedConfig (emit packedConfig.target witnessScene) = Except.ok witnessScene :=
  decode_emit packedConfig witnessScene (by decide)
    ⟨by decide, by decide, by decide,
      fun i hi => match i, hi with
        | 0, _ => ⟨1, by decide⟩
        | 1, _ => ⟨2, by decide⟩⟩
    (by decide)

set_option maxRecDepth 100000 in
/-- The concrete scenario of the specification (one mesh with 3 vertices and
one triangle with indices [0,1,2,0], one root node with mesh index 0, no
textures) decodes to a scene with exactly that content. -/
theorem sample_scene_decodes :
    decode sampleConfig (emit sampleConfig.target (sampleScene sampleConfig))
      = Except.ok (sampleScene sampleConfig) :=
  decode_emit sampleConfig (sampleScene sampleConfig) (by decide)
    ⟨by decide, by decide, by decide,
      fun i hi => match i, hi with
        | 0, _ => ⟨1, by decide⟩⟩
    (by decide)

/-- The record sizes of the codec are the sizes of the structs of `format.h`
on every well-formed target. -/
theorem record_sizes (t : Target) (h : t.wellFormed) :
    headerSize = sizeOf t map_header ∧ meshSize = sizeOf t map_mesh ∧
    nodeSize = sizeOf t map_node ∧ textureSize = sizeOf t map_texture ∧
    vertexSize = sizeOf t map_vertex ∧ polygonSize t = sizeOf t map_polygon := by
  have ht := target_cases t h
  simp only [List.mem_cons, List.mem_singleton, List.not_mem_nil, or_false] at ht
  rcases ht with rfl | rfl | rfl | rfl | rfl | rfl | rfl | rfl | rfl <;> decide

/-- The image of the polygon `{3, {0, 1, 2, 0}}` as `struct map_polygon` lays
it out under natural alignment (20 bytes, three padding bytes after the
count) and on a target without alignment (17 bytes), and both decode to the
polygon. -/
theorem polygon_struct_image :
    encodePolygon naturalTarget ⟨3, (0, 1, 2, 0)⟩
      = [3, 0, 0, 0, 0, 0, 0, 0, 1, 0, 0, 0, 2, 0, 0, 0, 0, 0, 0, 0] ∧
    decodePolygon naturalTarget
      [3, 0, 0, 0, 0, 0, 0, 0, 1, 0, 0, 0, 2, 0, 0, 0, 0, 0, 0, 0] 3 0
      = Except.ok ⟨3, (0, 1, 2, 0)⟩ ∧
    encodePolygon byteAlignedTarget ⟨3, (0, 1, 2, 0)⟩
      = [3, 0, 0, 0, 0, 1, 0, 0, 0, 2, 0, 0, 0, 0, 0, 0, 0] ∧
    decodePolygon byteAlignedTarget
      [3, 0, 0, 0, 0, 1, 0, 0, 0, 2, 0, 0, 0, 0, 0, 0, 0] 3 0
      = Except.ok ⟨3, (0, 1, 2, 0)⟩ :=
  ⟨rfl, rfl, rfl, rfl⟩

end MapFormat
